import Mathlib

/-!
Verification of the retro-matching-backend round engine against its
natural-language specification.

The Python source (src/app) is shallowly embedded below: SQLAlchemy rows
become Lean structures, the session becomes an explicit DB value threaded
through each operation, and raised exceptions become Except errors.  Python
name resolution matters for two of the claims (the source references
attributes that do not exist in the referenced modules), so the top-level
names actually defined by the relevant modules are recorded as string lists
and attribute access on them is modelled as a lookup that can fail with an
AttributeError, exactly as Python does at call time.
-/

/-- GamePhase enum from models/game.py. -/
inductive GamePhase
  | lobby
  | card_creation
  | playing
  | final_round
  | finished
deriving DecidableEq, Repr

/-- RoundPhase enum from models/round.py.  Note there is no VOTING member. -/
inductive RoundPhase
  | submitting
  | revealed
  | complete
deriving DecidableEq, Repr

/-- PlayerRole enum from models/player.py. -/
inductive PlayerRole
  | player
  | spectator
deriving DecidableEq, Repr

/-- CardType enum from models/card.py (start, stop, continue). -/
inductive CardType
  | start
  | stop
  | cont
deriving DecidableEq, Repr, Fintype

/-- A row of the games table (models/game.py). -/
structure GameRec where
  id : Nat
  phase : GamePhase
  creator_id : Option Nat
  current_round_id : Option Nat
deriving DecidableEq, Repr

/-- A row of the players table (models/player.py). -/
structure PlayerRec where
  id : Nat
  game_id : Nat
  display_name : String
  role : PlayerRole
  join_order : Nat
  is_ready : Bool
  score : Nat
  is_connected : Bool
deriving DecidableEq, Repr

/-- The is_spectator property of Player (role == SPECTATOR). -/
def PlayerRec.is_spectator (p : PlayerRec) : Bool :=
  p.role == PlayerRole.spectator

/-- A row of the cards table (models/card.py). -/
structure CardRec where
  id : Nat
  game_id : Nat
  creator_id : Nat
  holder_id : Option Nat
  card_type : CardType
  text : String
  is_played : Bool
deriving DecidableEq, Repr

/-- A row of the rounds table (models/round.py).  The random display
adjective is omitted: it is decorative text drawn from a fixed word list and
none of the verified claims mention it. -/
structure RoundRec where
  id : Nat
  game_id : Nat
  round_number : Nat
  judge_id : Option Nat
  phase : RoundPhase
  winner_id : Option Nat
  winning_card_id : Option Nat
  is_final_round : Bool
deriving DecidableEq, Repr

/-- A row of the submissions table (models/submission.py). -/
structure SubmissionRec where
  id : Nat
  round_id : Nat
  player_id : Nat
  card_id : Nat
deriving DecidableEq, Repr

/-- A row of the votes table (models/vote.py). -/
structure VoteRec where
  id : Nat
  round_id : Nat
  voter_id : Nat
  card_id : Nat
deriving DecidableEq, Repr

/-- The database session state: all rows, plus a fresh-id counter standing
for the autoincrement primary-key source. -/
structure DB where
  games : List GameRec
  players : List PlayerRec
  cards : List CardRec
  rounds : List RoundRec
  submissions : List SubmissionRec
  votes : List VoteRec
  next_id : Nat
deriving DecidableEq, Repr

/-- The exceptions raised by the services (errors.py), together with the
Python runtime errors that the dangling cross-module references produce. -/
inductive AppError
  | phaseMismatch
  | forbidden
  | invalidCard
  | alreadySubmitted
  | validationError
  | valueError
  | multipleResults
  | indexError
  | attributeError (name : String)
  | importError (name : String)
deriving DecidableEq, Repr

/-- Update the card row with the given id. -/
def updateCardIn (db : DB) (cid : Nat) (f : CardRec → CardRec) : DB :=
  { db with cards := db.cards.map (fun c => if c.id = cid then f c else c) }

/-- Update the player row with the given id. -/
def updatePlayerIn (db : DB) (pid : Nat) (f : PlayerRec → PlayerRec) : DB :=
  { db with players := db.players.map (fun p => if p.id = pid then f p else p) }

/-- Update the round row with the given id. -/
def updateRoundIn (db : DB) (rid : Nat) (f : RoundRec → RoundRec) : DB :=
  { db with rounds := db.rounds.map (fun r => if r.id = rid then f r else r) }

/-- Update the game row with the given id. -/
def updateGameIn (db : DB) (gid : Nat) (f : GameRec → GameRec) : DB :=
  { db with games := db.games.map (fun g => if g.id = gid then f g else g) }

/-- Count of Submission rows for a round (the count query used in
check_all_submitted). -/
def submissionCount (db : DB) (r : RoundRec) : Nat :=
  (db.submissions.filter (fun s => s.round_id = r.id)).length

/-- Count of Vote rows for a round (the count query used in all_voted). -/
def voteCount (db : DB) (r : RoundRec) : Nat :=
  (db.votes.filter (fun v => v.round_id = r.id)).length

/-- The cards currently held and unplayed by a player: the query
Card.holder_id == player.id AND Card.is_played IS false, used by
should_trigger_final_round, create_final_round, build_game_state_payload
and get_player_hand (none of them filter by game). -/
def held_unplayed (db : DB) (pid : Nat) : List CardRec :=
  db.cards.filter (fun c => c.holder_id = some pid ∧ c.is_played = false)

/-- Insert an element into a list sorted by the strict order lt, after
every strictly smaller element and before everything else. -/
def insertSortedBy (lt : α → α → Bool) (a : α) : List α → List α
  | [] => [a]
  | b :: bs => if lt b a then b :: insertSortedBy lt a bs else a :: b :: bs

/-- A stable insertion sort, modelling the Python builtin sorted(key=...)
used by the services (stable, and kernel-computable unlike mergeSort). -/
def stableSortBy (lt : α → α → Bool) : List α → List α
  | [] => []
  | a :: as => insertSortedBy lt a (stableSortBy lt as)

/-- The sort key used throughout the services: ascending join_order. -/
def byJoinOrder (a b : PlayerRec) : Bool :=
  a.join_order < b.join_order

/-- round_service._eligible_players: non-spectator players of the game
sorted by join_order. -/
def eligible_players (db : DB) (g : GameRec) : List PlayerRec :=
  stableSortBy byJoinOrder
    (db.players.filter (fun p => p.game_id = g.id ∧ p.is_spectator = false))

/-- round_service._create_round: build a Round row with the rotating judge
players[(round_number - 1) % len(players)] and point the game at it.  An
empty eligible list makes the Python indexing expression raise; this is
returned as indexError. -/
def create_round (db : DB) (g : GameRec) (round_number : Nat) :
    Except AppError (DB × RoundRec) :=
  let players := eligible_players db g
  match players.get? ((round_number - 1) % players.length) with
  | none => .error .indexError
  | some judge =>
    let r : RoundRec :=
      ⟨db.next_id, g.id, round_number, some judge.id, RoundPhase.submitting, none, none, false⟩
    let db1 := { db with rounds := db.rounds ++ [r], next_id := db.next_id + 1 }
    .ok (updateGameIn db1 g.id (fun gg => { gg with current_round_id := some r.id }), r)

/-- select max(Round.round_number) where game_id == game.id, with the
trailing "or 0" of the Python callers. -/
def lastRoundNumber (db : DB) (g : GameRec) : Nat :=
  (db.rounds.filter (fun r => r.game_id = g.id)).foldr (fun r acc => max r.round_number acc) 0

/-- round_service.create_first_round. -/
def create_first_round (db : DB) (g : GameRec) : Except AppError (DB × RoundRec) :=
  create_round db g 1

/-- round_service.create_next_round. -/
def create_next_round (db : DB) (g : GameRec) : Except AppError (DB × RoundRec) :=
  create_round db g (lastRoundNumber db g + 1)

/-- round_service.submit_card, with the source's validation order:
round phase, spectator, judge, duplicate submission, card validity; only
then is the card marked played and the Submission row added. -/
def submit_card (db : DB) (g : GameRec) (r : RoundRec) (p : PlayerRec) (card_id : Nat) :
    Except AppError (DB × SubmissionRec) :=
  if r.phase ≠ RoundPhase.submitting then .error .phaseMismatch
  else if p.is_spectator then .error .forbidden
  else if r.is_final_round = false ∧ some p.id = r.judge_id then .error .forbidden
  else if (db.submissions.filter (fun s => s.round_id = r.id ∧ s.player_id = p.id)) ≠ [] then
    .error .alreadySubmitted
  else
    match db.cards.find? (fun c => c.id = card_id) with
    | none => .error .invalidCard
    | some card =>
      if card.holder_id ≠ some p.id ∨ card.is_played = true ∨ card.game_id ≠ g.id then
        .error .invalidCard
      else
        let db1 := updateCardIn db card_id
          (fun c => { c with is_played := true, holder_id := none })
        let sub : SubmissionRec := ⟨db1.next_id, r.id, p.id, card_id⟩
        .ok ({ db1 with submissions := db1.submissions ++ [sub], next_id := db1.next_id + 1 },
             sub)

/-- round_service.check_all_submitted: the quorum predicate for the
submitting phase.  The denominator is the non-spectator players other than
the judge; the connectivity flag is not consulted. -/
def check_all_submitted (db : DB) (g : GameRec) (r : RoundRec) : Bool :=
  let players := eligible_players db g
  let submitters := players.filter (fun p => some p.id ≠ r.judge_id)
  submissionCount db r ≥ submitters.length

/-- round_service.reveal_round: set the round phase to revealed. -/
def reveal_round (db : DB) (r : RoundRec) : DB :=
  updateRoundIn db r.id (fun rr => { rr with phase := RoundPhase.revealed })

/-- round_service.pick_winner: the judge awards the round to one
submission; its submitter gains one point and the round completes. -/
def pick_winner (db : DB) (g : GameRec) (r : RoundRec) (judge : PlayerRec)
    (submission_id : Nat) : Except AppError (DB × Nat) :=
  if r.phase ≠ RoundPhase.revealed then .error .phaseMismatch
  else if some judge.id ≠ r.judge_id then .error .forbidden
  else
    match db.submissions.find? (fun s => s.id = submission_id) with
    | none => .error .invalidCard
    | some sub =>
      if sub.round_id ≠ r.id then .error .invalidCard
      else
        match db.players.find? (fun p => p.id = sub.player_id) with
        | none => .error (.attributeError "score")
        | some _ =>
          let db1 := updatePlayerIn db sub.player_id (fun p => { p with score := p.score + 1 })
          let db2 := updateRoundIn db1 r.id (fun rr =>
            { rr with winner_id := some sub.player_id,
                      winning_card_id := some sub.card_id,
                      phase := RoundPhase.complete })
          .ok (db2, sub.player_id)

/-- round_service.should_trigger_final_round: every eligible player holds
exactly one unplayed card, and there is at least one eligible player. -/
def should_trigger_final_round (db : DB) (g : GameRec) : Bool :=
  let players := eligible_players db g
  players.all (fun p => (held_unplayed db p.id).length = 1) && players.length > 0

/-- The auto-submit loop of round_service.create_final_round: each eligible
player's single remaining card is marked played, its holder cleared, and a
Submission recorded.  A player holding no card is skipped (the query
returns None); more than one held card makes scalar_one_or_none raise. -/
def auto_submit_last_cards (round_id : Nat) : DB → List PlayerRec → Except AppError DB
  | db, [] => .ok db
  | db, p :: ps =>
    match held_unplayed db p.id with
    | [] => auto_submit_last_cards round_id db ps
    | [c] =>
      let db1 := updateCardIn db c.id (fun cc => { cc with is_played := true, holder_id := none })
      let sub : SubmissionRec := ⟨db1.next_id, round_id, p.id, c.id⟩
      auto_submit_last_cards round_id
        { db1 with submissions := db1.submissions ++ [sub], next_id := db1.next_id + 1 } ps
    | _ :: _ :: _ => .error .multipleResults

/-- round_service.create_final_round: a judge-less final Round is created
in the submitting phase, the game moves to final_round, every remaining
card is auto-submitted, and the round is then set to revealed. -/
def create_final_round (db : DB) (g : GameRec) : Except AppError (DB × RoundRec) :=
  let n := lastRoundNumber db g
  let fr : RoundRec :=
    ⟨db.next_id, g.id, n + 1, none, RoundPhase.submitting, none, none, true⟩
  let db1 := { db with rounds := db.rounds ++ [fr], next_id := db.next_id + 1 }
  let db2 := updateGameIn db1 g.id (fun gg =>
    { gg with current_round_id := some fr.id, phase := GamePhase.final_round })
  match auto_submit_last_cards fr.id db2 (eligible_players db2 g) with
  | .error e => .error e
  | .ok db3 =>
    (.ok (updateRoundIn db3 fr.id (fun rr => { rr with phase := RoundPhase.revealed }),
          { fr with phase := RoundPhase.revealed }))

/-- vote_service.record_vote: final-round voting.  Note there is no role
check: spectators may vote. -/
def record_vote (db : DB) (g : GameRec) (r : RoundRec) (voter : PlayerRec) (card_id : Nat) :
    Except AppError DB :=
  if r.is_final_round = false then .error .phaseMismatch
  else if r.phase ≠ RoundPhase.revealed then .error .phaseMismatch
  else if (db.votes.filter (fun v => v.round_id = r.id ∧ v.voter_id = voter.id)) ≠ [] then
    .error .alreadySubmitted
  else if (db.submissions.filter (fun s => s.round_id = r.id ∧ s.card_id = card_id)) = [] then
    .error .invalidCard
  else
    let v : VoteRec := ⟨db.next_id, r.id, voter.id, card_id⟩
    .ok { db with votes := db.votes ++ [v], next_id := db.next_id + 1 }

/-- vote_service.all_voted: the voting quorum predicate.  The denominator
counts every connected participant of the game, with no role filter, so
connected spectators are counted. -/
def all_voted (db : DB) (g : GameRec) (r : RoundRec) : Bool :=
  let connected_count :=
    (db.players.filter (fun p => p.game_id = g.id ∧ p.is_connected = true)).length
  voteCount db r ≥ connected_count

/-- First-occurrence deduplication, mirroring the key order of the Python
dict built by the tally loop in vote_service.tally_and_finish. -/
def distinctKeys : List Nat → List Nat → List Nat
  | _, [] => []
  | seen, x :: xs =>
    if x ∈ seen then distinctKeys seen xs else x :: distinctKeys (x :: seen) xs

/-- The vote tally of one card: vote_counts[cid]. -/
def tallyOf (votes : List VoteRec) (cid : Nat) : Nat :=
  (votes.filter (fun v => v.card_id = cid)).length

/-- The score-award loop of vote_service.tally_and_finish: one point to the
submitter of each winning submission (skipping a missing player row, as the
source's "if winner_player:" does). -/
def award_points : DB → List SubmissionRec → DB
  | db, [] => db
  | db, s :: ss =>
    match db.players.find? (fun p => p.id = s.player_id) with
    | none => award_points db ss
    | some _ =>
      award_points (updatePlayerIn db s.player_id (fun p => { p with score := p.score + 1 })) ss

/-- The winning-card computation shared by vote_service.tally_and_finish
and state_service._compute_winners: tally the round's votes per card and
keep every card tied at the maximum tally (empty when there are no
votes). -/
def winning_card_ids (db : DB) (r : RoundRec) : List Nat :=
  let votes := db.votes.filter (fun v => v.round_id = r.id)
  let cardIds := distinctKeys [] (votes.map (fun v => v.card_id))
  if cardIds = [] then []
  else
    let max_votes := (cardIds.map (tallyOf votes)).foldr max 0
    cardIds.filter (fun cid => tallyOf votes cid = max_votes)

/-- vote_service.tally_and_finish: tally votes per card, compute the cards
tied at the maximum tally, award one point to each winning submitter only
when there are exactly 1 or 2 winning cards, then complete the round and
finish the game.  With no votes the winning list is empty, its length is
neither 1 nor 2, and no points are awarded, matching the source's
"if vote_counts:" guard. -/
def tally_and_finish (db : DB) (g : GameRec) (r : RoundRec) : DB :=
  let winning := winning_card_ids db r
  let db1 :=
    if winning.length = 1 ∨ winning.length = 2 then
      award_points db
        (db.submissions.filter (fun s => s.round_id = r.id ∧ s.card_id ∈ winning))
    else db
  let db2 := updateRoundIn db1 r.id (fun rr => { rr with phase := RoundPhase.complete })
  updateGameIn db2 g.id (fun gg => { gg with phase := GamePhase.finished })

/-- Count of entries of one card_type string in an authoring payload
(the type_counts dict of card_service.save_player_cards). -/
def countType (cards_data : List (String × String)) (t : String) : Nat :=
  (cards_data.filter (fun c => c.1 = t)).length

/-- The CardType(value) constructor call: ValueError on anything but the
three member values. -/
def cardTypeOfString (s : String) : Option CardType :=
  if s = "start" then some CardType.start
  else if s = "stop" then some CardType.stop
  else if s = "continue" then some CardType.cont
  else none

/-- The insertion loop of card_service.save_player_cards: one Card row per
payload entry, authored and initially held by the player, text stripped. -/
def insert_authored_cards : DB → GameRec → PlayerRec → List (String × String) →
    Except AppError DB
  | db, _, _, [] => .ok db
  | db, g, p, c :: rest =>
    match cardTypeOfString c.1 with
    | none => .error .valueError
    | some t =>
      let card : CardRec := ⟨db.next_id, g.id, p.id, some p.id, t, c.2.trim, false⟩
      insert_authored_cards
        { db with cards := db.cards ++ [card], next_id := db.next_id + 1 } g p rest

/-- card_service.save_player_cards: phase and role guards, the 2/2/2
validation, then deletion of the player's previously authored cards in this
game followed by insertion of the new six. -/
def save_player_cards (db : DB) (g : GameRec) (p : PlayerRec)
    (cards_data : List (String × String)) : Except AppError DB :=
  if g.phase ≠ GamePhase.card_creation then .error .phaseMismatch
  else if p.is_spectator then .error .forbidden
  else if ¬ (cards_data.all (fun c => c.1 = "start" ∨ c.1 = "stop" ∨ c.1 = "continue")) then
    .error .validationError
  else if countType cards_data "start" ≠ 2 ∨ countType cards_data "stop" ≠ 2 ∨
      countType cards_data "continue" ≠ 2 then
    .error .validationError
  else
    insert_authored_cards
      { db with cards := db.cards.filter (fun c => ¬ (c.game_id = g.id ∧ c.creator_id = p.id)) }
      g p cards_data

/-- The chunked dealing of card_service.redistribute_cards: player i of the
join-ordered list receives the shuffled cards at positions 2i and 2i+1. -/
def dealAssignments : List Nat → List CardRec → List (Nat × Nat)
  | [], _ => []
  | pid :: ps, cs => (cs.take 2).map (fun c => (c.id, pid)) ++ dealAssignments ps (cs.drop 2)

/-- Apply a card-id/holder assignment list: each assigned card has its
holder set and its played flag reset. -/
def applyAssignments (cards : List CardRec) (assignments : List (Nat × Nat)) : List CardRec :=
  cards.map (fun c =>
    match assignments.lookup c.id with
    | some pid => { c with holder_id := some pid, is_played := false }
    | none => c)

/-- One iteration of the per-type loop of card_service.redistribute_cards:
collect the game's cards of this type, shuffle them, and deal chunks of two
to the join-ordered players. -/
def redistributeType (db : DB) (g : GameRec) (shuffle : List CardRec → List CardRec)
    (player_ids : List Nat) (t : CardType) : DB :=
  let cards := db.cards.filter (fun c => c.game_id = g.id ∧ c.card_type = t)
  { db with cards := applyAssignments db.cards (dealAssignments player_ids (shuffle cards)) }

/-- card_service.redistribute_cards.  The call to random.shuffle is modelled
by the shuffle parameter; every theorem about redistribution assumes only
that it permutes its input. -/
def redistribute_cards (db : DB) (g : GameRec) (shuffle : List CardRec → List CardRec) : DB :=
  let player_ids := (eligible_players db g).map (fun p => p.id)
  [CardType.start, CardType.stop, CardType.cont].foldl
    (fun acc t => redistributeType acc g shuffle player_ids t) db

/-- The top-level names defined by round_service.py.  Neither begin_voting
nor MAX_ROUNDS is among them, although sockets/handlers.py calls
round_service.begin_voting and services/state_service.py imports
MAX_ROUNDS from this module. -/
def round_service_defs : List String :=
  ["create_first_round", "create_next_round", "_create_round", "submit_card",
   "check_all_submitted", "reveal_round", "pick_winner", "should_trigger_final_round",
   "create_final_round", "_eligible_players"]

/-- The top-level names defined by vote_service.py.  There is no
tally_round, although sockets/handlers.py calls vote_service.tally_round. -/
def vote_service_defs : List String :=
  ["record_vote", "all_voted", "tally_and_finish"]

/-- Python attribute access RoundPhase.name on the enum of models/round.py:
only SUBMITTING, REVEALED and COMPLETE exist; any other name (in particular
the VOTING referenced by state_service and handlers) raises
AttributeError. -/
def roundPhaseAttr (name : String) : Except AppError RoundPhase :=
  if name = "SUBMITTING" then .ok RoundPhase.submitting
  else if name = "REVEALED" then .ok RoundPhase.revealed
  else if name = "COMPLETE" then .ok RoundPhase.complete
  else .error (.attributeError name)

/-- The module-level import in state_service.py:
"from ..services.round_service import MAX_ROUNDS".  round_service.py defines
no MAX_ROUNDS, so loading state_service raises ImportError. -/
def state_service_import : Except AppError Unit :=
  if round_service_defs.contains "MAX_ROUNDS" then .ok () else .error (.importError "MAX_ROUNDS")

/-- One entry of the revealed submission list built by
state_service._build_revealed_submissions.  The structure carries exactly
the four fields the source dict carries: no submitter identity. -/
structure RevealedEntry where
  submission_id : Nat
  card_id : Nat
  card_type : CardType
  card_text : String
deriving DecidableEq, Repr

/-- The per-submission loop of _build_revealed_submissions; a dangling
card reference would raise when the card relationship is touched. -/
def buildRevealedList : DB → List SubmissionRec → Except AppError (List RevealedEntry)
  | _, [] => .ok []
  | db, s :: ss =>
    match db.cards.find? (fun c => c.id = s.card_id) with
    | none => .error (.attributeError "card_type")
    | some c => do
      let rest ← buildRevealedList db ss
      .ok (⟨s.id, s.card_id, c.card_type, c.text⟩ :: rest)

/-- state_service._build_revealed_submissions. -/
def build_revealed_submissions (db : DB) (r : RoundRec) : Except AppError (List RevealedEntry) :=
  buildRevealedList db (db.submissions.filter (fun s => s.round_id = r.id))

/-- One entry of the submission-status list: player id, display name and a
flag only — who has acted, not what. -/
structure StatusEntry where
  player_id : Nat
  display_name : String
  acted : Bool
deriving DecidableEq, Repr

/-- state_service._build_submission_status. -/
def build_submission_status (db : DB) (g : GameRec) (r : RoundRec) : List StatusEntry :=
  let submitted := (db.submissions.filter (fun s => s.round_id = r.id)).map (fun s => s.player_id)
  (stableSortBy byJoinOrder (db.players.filter (fun p => p.game_id = g.id))).filterMap
    (fun p =>
      if p.is_spectator then none
      else some ⟨p.id, p.display_name, submitted.contains p.id⟩)

/-- state_service._build_vote_status (dead code in the source: the call
site raises before reaching it). -/
def build_vote_status (db : DB) (g : GameRec) (r : RoundRec) : List StatusEntry :=
  let voted := (db.votes.filter (fun v => v.round_id = r.id)).map (fun v => v.voter_id)
  (stableSortBy byJoinOrder (db.players.filter (fun p => p.game_id = g.id))).filterMap
    (fun p =>
      if p.is_spectator then none
      else some ⟨p.id, p.display_name, voted.contains p.id⟩)

/-- state_service._compute_winners: winning card ids by vote tally, and
the submitter ids of the winning submissions. -/
def compute_winners (db : DB) (r : RoundRec) : List Nat × List Nat :=
  let votes := db.votes.filter (fun v => v.round_id = r.id)
  if votes = [] then ([], [])
  else
    let cardIds := distinctKeys [] (votes.map (fun v => v.card_id))
    let max_votes := (cardIds.map (tallyOf votes)).foldr max 0
    let winning := cardIds.filter (fun cid => tallyOf votes cid = max_votes)
    (winning,
     (db.submissions.filter (fun s => s.round_id = r.id ∧ s.card_id ∈ winning)).map
       (fun s => s.player_id))

/-- The public per-player block of the room-wide snapshot: name, role,
score, connectivity and held-card count only. -/
structure PlayerPublicData where
  id : Nat
  display_name : String
  role : PlayerRole
  join_order : Nat
  score : Nat
  is_connected : Bool
  is_ready : Bool
  card_count : Nat
deriving DecidableEq, Repr

/-- The current-round block of the room-wide snapshot. -/
structure CurrentRoundData where
  id : Nat
  round_number : Nat
  phase : RoundPhase
  submission_status : List StatusEntry
  revealed_submissions : Option (List RevealedEntry)
  vote_status : Option (List StatusEntry)
  winning_card_ids : List Nat
  winner_player_ids : List Nat
deriving DecidableEq, Repr

/-- The room-wide game_state_updated payload. -/
structure GameStatePayload where
  phase : GamePhase
  creator_id : Option Nat
  players : List PlayerPublicData
  current_round : Option CurrentRoundData
deriving DecidableEq, Repr

/-- state_service.build_game_state_payload, line by line.  With a current
round present, the source evaluates "r.phase == RoundPhase.VOTING" to build
the vote-status block; RoundPhase has no VOTING member, so the expression
raises AttributeError before the payload is assembled. -/
def build_game_state_payload (db : DB) (g : GameRec) : Except AppError GameStatePayload := do
  let players_data :=
    (stableSortBy byJoinOrder (db.players.filter (fun p => p.game_id = g.id))).map
      (fun p =>
        PlayerPublicData.mk p.id p.display_name p.role p.join_order p.score p.is_connected
          p.is_ready (held_unplayed db p.id).length)
  match g.current_round_id.bind (fun rid => db.rounds.find? (fun r => r.id = rid)) with
  | none => .ok ⟨g.phase, g.creator_id, players_data, none⟩
  | some r => do
    let submission_status := build_submission_status db g r
    let revealed ←
      if r.phase ≠ RoundPhase.submitting then
        (build_revealed_submissions db r).map some
      else .ok none
    let votingPhase ← roundPhaseAttr "VOTING"
    let vote_status := if r.phase = votingPhase then some (build_vote_status db g r) else none
    let winners := if r.phase = RoundPhase.complete then compute_winners db r else ([], [])
    .ok ⟨g.phase, g.creator_id, players_data,
         some ⟨r.id, r.round_number, r.phase, submission_status, revealed, vote_status,
               winners.1, winners.2⟩⟩

/-- handlers._check_round_progress_after_disconnect.  In the submitting
phase a met quorum leads the source to call round_service.begin_voting,
which round_service does not define; in any other phase the elif evaluates
RoundPhase.VOTING, which does not exist either.  Both raise. -/
def check_round_progress_after_disconnect (db : DB) (g : GameRec) (r : RoundRec) :
    Except AppError DB :=
  if r.phase = RoundPhase.submitting then
    if check_all_submitted db g r then
      if round_service_defs.contains "begin_voting" then .ok db
      else .error (.attributeError "begin_voting")
    else .ok db
  else do
    let votingPhase ← roundPhaseAttr "VOTING"
    if r.phase = votingPhase then
      if all_voted db g r then
        if vote_service_defs.contains "tally_round" then .ok db
        else .error (.attributeError "tally_round")
      else .ok db
    else .ok db

/-- Mark a player as disconnected (the state change the disconnect handler
commits before re-checking round progress). -/
def setConnected (db : DB) (pid : Nat) (b : Bool) : DB :=
  updatePlayerIn db pid (fun p => { p with is_connected := b })

/-- The submit route of api/games.py after a successful submission: if
check_all_submitted now holds, the round is revealed. -/
def submit_card_route (db : DB) (g : GameRec) (r : RoundRec) (p : PlayerRec) (card_id : Nat) :
    Except AppError DB := do
  let (db1, _) ← submit_card db g r p card_id
  if check_all_submitted db1 g r then .ok (reveal_round db1 r) else .ok db1

/-- The pick-winner route of api/games.py after a successful pick: either
the final round is triggered or the next normal round is created.  The
returned flag is the final_round_triggered field of the response. -/
def pick_winner_route (db : DB) (g : GameRec) (r : RoundRec) (judge : PlayerRec)
    (submission_id : Nat) : Except AppError (DB × Bool) := do
  let (db1, _) ← pick_winner db g r judge submission_id
  if should_trigger_final_round db1 g then do
    let (db2, _) ← create_final_round db1 g
    .ok (db2, true)
  else do
    let (db2, _) ← create_next_round db1 g
    .ok (db2, false)

/-- The vote route of api/games.py after a successful vote: if all_voted
now holds, the round is tallied and the game finished.  The returned flag
is the game_finished field of the response. -/
def vote_route (db : DB) (g : GameRec) (r : RoundRec) (voter : PlayerRec) (card_id : Nat) :
    Except AppError (DB × Bool) := do
  let db1 ← record_vote db g r voter card_id
  if all_voted db1 g r then .ok (tally_and_finish db1 g r, true) else .ok (db1, false)

/-- Modelled from the spec: the reachable-eligible count, that is the
number of Player-role participants of the game currently marked connected.
This is the quorum denominator the specification prescribes; it exists here
only to be compared with the denominators the code actually uses. -/
def spec_reachable_eligible_count (db : DB) (g : GameRec) : Nat :=
  (db.players.filter
    (fun p => p.game_id = g.id ∧ p.role = PlayerRole.player ∧ p.is_connected = true)).length

/-- The score of the player row with a given id, as the source reads it
through db.session.get(Player, pid): none when the row is absent. -/
def scoreOf (db : DB) (pid : Nat) : Option Nat :=
  (db.players.find? (fun p => p.id = pid)).map (fun p => p.score)

/-- A three-player game in the playing phase: players 10, 11 and 12, all
connected, with player 10 the judge of round 100; the two non-judges have
already submitted (cards 301 and 302). -/
def db_c1 : DB :=
  ⟨[⟨1, GamePhase.playing, some 10, some 100⟩],
   [⟨10, 1, "", PlayerRole.player, 0, true, 0, true⟩,
    ⟨11, 1, "", PlayerRole.player, 1, true, 0, true⟩,
    ⟨12, 1, "", PlayerRole.player, 2, true, 0, true⟩],
   [⟨301, 1, 11, none, CardType.start, "", true⟩,
    ⟨302, 1, 12, none, CardType.stop, "", true⟩,
    ⟨303, 1, 10, some 10, CardType.cont, "", false⟩],
   [⟨100, 1, 1, some 10, RoundPhase.submitting, none, none, false⟩],
   [⟨201, 100, 11, 301⟩, ⟨202, 100, 12, 302⟩],
   [], 400⟩

/-- The game row of db_c1. -/
def g_c1 : GameRec := ⟨1, GamePhase.playing, some 10, some 100⟩

/-- The round row of db_c1. -/
def r_c1 : RoundRec := ⟨100, 1, 1, some 10, RoundPhase.submitting, none, none, false⟩

/-- The connected Observer-role participants of the game: together with
the reachable-eligible players they form the denominator all_voted
actually uses. -/
def connectedSpectatorCount (db : DB) (g : GameRec) : Nat :=
  (db.players.filter
    (fun p => p.game_id = g.id ∧ p.role = PlayerRole.spectator ∧ p.is_connected = true)).length

/-- A three-player game whose current round 300 is in the submitting
phase: the state on which the snapshot builder is exercised. -/
def db_c3 : DB :=
  ⟨[⟨3, GamePhase.playing, some 30, some 300⟩],
   [⟨30, 3, "", PlayerRole.player, 0, true, 0, true⟩,
    ⟨31, 3, "", PlayerRole.player, 1, true, 0, true⟩,
    ⟨32, 3, "", PlayerRole.player, 2, true, 0, true⟩],
   [⟨310, 3, 31, none, CardType.start, "", true⟩,
    ⟨311, 3, 32, some 32, CardType.stop, "", false⟩],
   [⟨300, 3, 1, some 30, RoundPhase.submitting, none, none, false⟩],
   [⟨320, 300, 31, 310⟩],
   [], 330⟩

/-- The game row of db_c3. -/
def g_c3 : GameRec := ⟨3, GamePhase.playing, some 30, some 300⟩

/-- db_c3 with its round advanced to the revealed phase. -/
def db_c3r : DB :=
  { db_c3 with rounds := [⟨300, 3, 1, some 30, RoundPhase.revealed, none, none, false⟩] }

/-- A lobby game with no current round, on which the snapshot builder has
no round block to assemble. -/
def db_c3b : DB :=
  ⟨[⟨33, GamePhase.lobby, some 35, none⟩],
   [⟨35, 33, "", PlayerRole.player, 0, false, 0, true⟩], [], [], [], [], 36⟩

/-- The game row of db_c3b. -/
def g_c3b : GameRec := ⟨33, GamePhase.lobby, some 35, none⟩

/-- A two-player game whose round number 6 is revealed with one submission
(410, by player 42), each player still holding two unplayed cards. -/
def db_c4 : DB :=
  ⟨[⟨4, GamePhase.playing, some 41, some 400⟩],
   [⟨41, 4, "", PlayerRole.player, 0, true, 2, true⟩,
    ⟨42, 4, "", PlayerRole.player, 1, true, 3, true⟩],
   [⟨55, 4, 42, none, CardType.start, "", true⟩,
    ⟨61, 4, 41, some 41, CardType.stop, "", false⟩,
    ⟨62, 4, 41, some 41, CardType.cont, "", false⟩,
    ⟨63, 4, 42, some 42, CardType.start, "", false⟩,
    ⟨64, 4, 42, some 42, CardType.stop, "", false⟩],
   [⟨400, 4, 6, some 41, RoundPhase.revealed, none, none, false⟩],
   [⟨410, 400, 42, 55⟩],
   [], 500⟩

/-- The game row of db_c4. -/
def g_c4 : GameRec := ⟨4, GamePhase.playing, some 41, some 400⟩

/-- The round row of db_c4 (the game's sixth round). -/
def r_c4 : RoundRec := ⟨400, 4, 6, some 41, RoundPhase.revealed, none, none, false⟩

/-- The judge of round 400 in db_c4. -/
def p_c4 : PlayerRec := ⟨41, 4, "", PlayerRole.player, 0, true, 2, true⟩

/-- A final-round game with two connected players (51, 52) who have both
voted and one connected spectator (53) who has not. -/
def db_c5 : DB :=
  ⟨[⟨5, GamePhase.final_round, some 51, some 500⟩],
   [⟨51, 5, "", PlayerRole.player, 0, true, 0, true⟩,
    ⟨52, 5, "", PlayerRole.player, 1, true, 0, true⟩,
    ⟨53, 5, "", PlayerRole.spectator, 2, false, 0, true⟩],
   [⟨71, 5, 51, none, CardType.start, "", true⟩,
    ⟨72, 5, 52, none, CardType.stop, "", true⟩],
   [⟨500, 5, 11, none, RoundPhase.revealed, none, none, true⟩],
   [⟨511, 500, 51, 71⟩, ⟨512, 500, 52, 72⟩],
   [⟨521, 500, 51, 72⟩, ⟨522, 500, 52, 71⟩], 530⟩

/-- The game row of db_c5. -/
def g_c5 : GameRec := ⟨5, GamePhase.final_round, some 51, some 500⟩

/-- The final round row of db_c5. -/
def r_c5 : RoundRec := ⟨500, 5, 11, none, RoundPhase.revealed, none, none, true⟩

/-- Player 51 of db_c5, who has already voted. -/
def p_c5 : PlayerRec := ⟨51, 5, "", PlayerRole.player, 0, true, 0, true⟩

/-- A three-player game in its second round (600), whose judge is player
62 — the eligible player at join-order position (2 - 1) mod 3 = 1 — and a
card 81 currently held by that judge. -/
def db_c6 : DB :=
  ⟨[⟨6, GamePhase.playing, some 61, some 600⟩],
   [⟨61, 6, "", PlayerRole.player, 0, true, 0, true⟩,
    ⟨62, 6, "", PlayerRole.player, 1, true, 0, true⟩,
    ⟨63, 6, "", PlayerRole.player, 2, true, 1, true⟩],
   [⟨81, 6, 61, some 62, CardType.start, "", false⟩],
   [⟨600, 6, 2, some 62, RoundPhase.submitting, none, none, false⟩],
   [], [], 610⟩

/-- The game row of db_c6. -/
def g_c6 : GameRec := ⟨6, GamePhase.playing, some 61, some 600⟩

/-- The round row of db_c6. -/
def r_c6 : RoundRec := ⟨600, 6, 2, some 62, RoundPhase.submitting, none, none, false⟩

/-- The judge of round 600 in db_c6. -/
def p_c6 : PlayerRec := ⟨62, 6, "", PlayerRole.player, 1, true, 0, true⟩

/-- Player 11 of db_c1, who has already submitted in round 100. -/
def p_c1 : PlayerRec := ⟨11, 1, "", PlayerRole.player, 1, true, 0, true⟩

/-- A final-round game with submissions x=31, y=32, z=33 from players 21,
22, 23 and one vote for each card: a three-way tie at the maximum. -/
def db_c2 : DB :=
  ⟨[⟨2, GamePhase.final_round, some 21, some 200⟩],
   [⟨21, 2, "", PlayerRole.player, 0, true, 0, true⟩,
    ⟨22, 2, "", PlayerRole.player, 1, true, 0, true⟩,
    ⟨23, 2, "", PlayerRole.player, 2, true, 0, true⟩],
   [⟨31, 2, 21, none, CardType.start, "", true⟩,
    ⟨32, 2, 22, none, CardType.stop, "", true⟩,
    ⟨33, 2, 23, none, CardType.cont, "", true⟩],
   [⟨200, 2, 7, none, RoundPhase.revealed, none, none, true⟩],
   [⟨211, 200, 21, 31⟩, ⟨212, 200, 22, 32⟩, ⟨213, 200, 23, 33⟩],
   [⟨221, 200, 21, 32⟩, ⟨222, 200, 22, 33⟩, ⟨223, 200, 23, 31⟩], 230⟩

/-- The game row of db_c2. -/
def g_c2 : GameRec := ⟨2, GamePhase.final_round, some 21, some 200⟩

/-- The final round row of db_c2. -/
def r_c2 : RoundRec := ⟨200, 2, 7, none, RoundPhase.revealed, none, none, true⟩

/-- The spec's concrete tie-break case: submissions x=31, y=32, z=33 from
players 21 (A), 22 (B), 23 (C); two votes for x (voters 22 and the
spectator 24), two for y (voters 21 and the spectator 25), one for z
(voter 23). -/
def db_c2w : DB :=
  ⟨[⟨2, GamePhase.final_round, some 21, some 200⟩],
   [⟨21, 2, "", PlayerRole.player, 0, true, 0, true⟩,
    ⟨22, 2, "", PlayerRole.player, 1, true, 0, true⟩,
    ⟨23, 2, "", PlayerRole.player, 2, true, 0, true⟩,
    ⟨24, 2, "", PlayerRole.spectator, 3, false, 0, true⟩,
    ⟨25, 2, "", PlayerRole.spectator, 4, false, 0, true⟩],
   [⟨31, 2, 21, none, CardType.start, "", true⟩,
    ⟨32, 2, 22, none, CardType.stop, "", true⟩,
    ⟨33, 2, 23, none, CardType.cont, "", true⟩],
   [⟨200, 2, 7, none, RoundPhase.revealed, none, none, true⟩],
   [⟨211, 200, 21, 31⟩, ⟨212, 200, 22, 32⟩, ⟨213, 200, 23, 33⟩],
   [⟨221, 200, 22, 31⟩, ⟨222, 200, 24, 31⟩, ⟨223, 200, 21, 32⟩,
    ⟨224, 200, 25, 32⟩, ⟨225, 200, 23, 33⟩], 230⟩

/-- The game row of db_c2w. -/
def g_c2w : GameRec := ⟨2, GamePhase.final_round, some 21, some 200⟩

/-- The final round row of db_c2w. -/
def r_c2w : RoundRec := ⟨200, 2, 7, none, RoundPhase.revealed, none, none, true⟩

/-- A two-player game after its tenth round completed, with each player
holding exactly one unplayed card (91 held by 71, 92 held by 72): the
final-round trigger condition. -/
def db_c7 : DB :=
  ⟨[⟨7, GamePhase.playing, some 71, some 700⟩],
   [⟨71, 7, "", PlayerRole.player, 0, true, 2, true⟩,
    ⟨72, 7, "", PlayerRole.player, 1, true, 3, true⟩],
   [⟨91, 7, 71, some 71, CardType.start, "", false⟩,
    ⟨92, 7, 72, some 72, CardType.stop, "", false⟩,
    ⟨93, 7, 71, none, CardType.cont, "", true⟩],
   [⟨700, 7, 10, some 71, RoundPhase.complete, some 72, some 93, false⟩],
   [⟨710, 700, 72, 93⟩],
   [], 800⟩

/-- The game row of db_c7. -/
def g_c7 : GameRec := ⟨7, GamePhase.playing, some 71, some 700⟩

/-- Number of unplayed cards of one category held by a player within a
game: the quantity the conservation property counts. -/
def heldCountG (db : DB) (g : GameRec) (pid : Nat) (t : CardType) : Nat :=
  (db.cards.filter (fun c => c.game_id = g.id ∧ c.card_type = t ∧
    c.holder_id = some pid ∧ c.is_played = false)).length

/-- Number of unplayed cards held by a player within a game, all
categories together. -/
def heldTotalG (db : DB) (g : GameRec) (pid : Nat) : Nat :=
  (db.cards.filter (fun c => c.game_id = g.id ∧
    c.holder_id = some pid ∧ c.is_played = false)).length

/-- A game at the end of the card-creation phase: two players 901 and 902,
each having authored exactly 2 cards of each of the three categories, all
cards initially held by their creators. -/
def db_c9 : DB :=
  ⟨[⟨9, GamePhase.card_creation, some 901, none⟩],
   [⟨901, 9, "", PlayerRole.player, 0, true, 0, true⟩,
    ⟨902, 9, "", PlayerRole.player, 1, true, 0, true⟩],
   [⟨911, 9, 901, some 901, CardType.start, "", false⟩,
    ⟨912, 9, 901, some 901, CardType.start, "", false⟩,
    ⟨913, 9, 901, some 901, CardType.stop, "", false⟩,
    ⟨914, 9, 901, some 901, CardType.stop, "", false⟩,
    ⟨915, 9, 901, some 901, CardType.cont, "", false⟩,
    ⟨916, 9, 901, some 901, CardType.cont, "", false⟩,
    ⟨917, 9, 902, some 902, CardType.start, "", false⟩,
    ⟨918, 9, 902, some 902, CardType.start, "", false⟩,
    ⟨919, 9, 902, some 902, CardType.stop, "", false⟩,
    ⟨920, 9, 902, some 902, CardType.stop, "", false⟩,
    ⟨921, 9, 902, some 902, CardType.cont, "", false⟩,
    ⟨922, 9, 902, some 902, CardType.cont, "", false⟩],
   [], [], [], 930⟩

/-- The game row of db_c9. -/
def g_c9 : GameRec := ⟨9, GamePhase.card_creation, some 901, none⟩

/-- A first valid 2/2/2 authoring payload. -/
def data_c10a : List (String × String) :=
  [("start", "a1"), ("start", "a2"), ("stop", "a3"), ("stop", "a4"),
   ("continue", "a5"), ("continue", "a6")]

/-- A second valid 2/2/2 authoring payload, retried by the same player. -/
def data_c10b : List (String × String) :=
  [("start", "b1"), ("start", "b2"), ("stop", "b3"), ("stop", "b4"),
   ("continue", "b5"), ("continue", "b6")]

/-- A game in the card-creation phase with a single player 101 about to
author cards. -/
def db_c10 : DB :=
  ⟨[⟨10, GamePhase.card_creation, some 101, none⟩],
   [⟨101, 10, "", PlayerRole.player, 0, false, 0, true⟩,
    ⟨102, 10, "", PlayerRole.player, 1, false, 0, true⟩],
   [], [], [], [], 110⟩

/-- The game row of db_c10. -/
def g_c10 : GameRec := ⟨10, GamePhase.card_creation, some 101, none⟩

/-- The authoring player of db_c10. -/
def p_c10 : PlayerRec := ⟨101, 10, "", PlayerRole.player, 0, false, 0, true⟩

/-- Inserting into a sorted list permutes consing. -/
theorem perm_insertSortedBy (lt : α → α → Bool) (a : α) (l : List α) :
    (insertSortedBy lt a l).Perm (a :: l) := by
  induction l with
  | nil => exact List.Perm.refl _
  | cons b bs ih =>
    by_cases h : lt b a
    · simpa [insertSortedBy, h] using (List.Perm.cons b ih).trans (List.Perm.swap a b bs)
    · simp [insertSortedBy, h]

/-- The stable sort is a permutation of its input. -/
theorem perm_stableSortBy (lt : α → α → Bool) (l : List α) :
    (stableSortBy lt l).Perm l := by
  induction l with
  | nil => exact List.Perm.refl _
  | cons a as ih =>
    exact (perm_insertSortedBy lt a (stableSortBy lt as)).trans (List.Perm.cons a ih)

/-- The submitter denominator of check_all_submitted is unchanged by any
flip of any connectivity flag: the predicate reads only ids, game ids and
roles. -/
theorem submitters_length_setConnected (db : DB) (pid : Nat) (b : Bool) (g : GameRec)
    (r : RoundRec) :
    ((eligible_players (setConnected db pid b) g).filter
        (fun p => some p.id ≠ r.judge_id)).length
      = ((eligible_players db g).filter (fun p => some p.id ≠ r.judge_id)).length := by
  rw [← List.countP_eq_length_filter, ← List.countP_eq_length_filter]
  unfold eligible_players
  rw [(perm_stableSortBy _ _).countP_eq, (perm_stableSortBy _ _).countP_eq,
    List.countP_filter, List.countP_filter]
  show List.countP _ (db.players.map _) = _
  rw [List.countP_map]
  apply List.countP_congr
  intro p _
  by_cases h : p.id = pid <;>
    simp [h, Function.comp, PlayerRec.is_spectator]

/-- C1 counterexample.  The claim says the round advances out of the
submitting phase exactly when submitted-count is at least the
reachable-eligible count (connected Player-role participants).  In db_c1
all three players are connected, so the claimed denominator is 3 and two
submissions should not advance the round; check_all_submitted nevertheless
already holds, because the code's denominator excludes the judge and
ignores connectivity. -/
theorem claim_C1_counterexample :
    check_all_submitted db_c1 g_c1 r_c1 = true ∧
    submissionCount db_c1 r_c1 < spec_reachable_eligible_count db_c1 g_c1 := by
  decide

/-- C1 (amended): the quorum actually evaluated for a round in the
submitting phase counts the non-spectator, non-judge players of the game
with no regard to connectivity — flipping any connectivity flag never
changes check_all_submitted (first conjunct); the condition is re-evaluated
after every successful submission, revealing the round when it holds
(second conjunct); the disconnect handler re-evaluates it too, but a met
quorum there makes the handler raise AttributeError, because it calls
round_service.begin_voting which round_service does not define, so a
disconnect never advances the round (third conjunct). -/
theorem claim_C1 :
    (∀ (db : DB) (pid : Nat) (b : Bool) (g : GameRec) (r : RoundRec),
      check_all_submitted (setConnected db pid b) g r = check_all_submitted db g r) ∧
    (∀ (db : DB) (g : GameRec) (r : RoundRec) (p : PlayerRec) (cid : Nat)
        (res : DB × SubmissionRec),
      submit_card db g r p cid = .ok res →
      submit_card_route db g r p cid
        = .ok (if check_all_submitted res.1 g r then reveal_round res.1 r else res.1)) ∧
    (∀ (db : DB) (g : GameRec) (r : RoundRec),
      r.phase = RoundPhase.submitting → check_all_submitted db g r = true →
      check_round_progress_after_disconnect db g r
        = .error (.attributeError "begin_voting")) := by
  refine ⟨?_, ?_, ?_⟩
  · intro db pid b g r
    simp only [check_all_submitted]
    rw [submitters_length_setConnected]
    rfl
  · intro db g r p cid res h
    unfold submit_card_route
    rw [h]
    show (if check_all_submitted res.1 g r then _ else _) = _
    by_cases hc : check_all_submitted res.1 g r <;> simp [hc]
  · intro db g r h1 h2
    unfold check_round_progress_after_disconnect
    rw [if_pos h1, if_pos h2]
    rfl

/-- C1 witness: in the concrete three-player game, disconnecting player 12
does not change the quorum predicate, and the disconnect handler, with the
quorum met, raises the begin_voting AttributeError instead of advancing. -/
theorem claim_C1_witness :
    check_all_submitted (setConnected db_c1 12 false) g_c1 r_c1
      = check_all_submitted db_c1 g_c1 r_c1 ∧
    check_round_progress_after_disconnect db_c1 g_c1 r_c1
      = .error (.attributeError "begin_voting") :=
  ⟨claim_C1.1 db_c1 12 false g_c1 r_c1,
   claim_C1.2.2 db_c1 g_c1 r_c1 rfl (by decide)⟩

/-- C3: the state projector cannot produce the room-wide snapshot the
claim describes.  Whenever the game has a current round — in the
submitting phase (db_c3) just as after the reveal (db_c3r) — evaluating
build_game_state_payload reaches the comparison with RoundPhase.VOTING, an
enum member that does not exist, and raises AttributeError; the module
module-level load of MAX_ROUNDS from round_service fails as well: only a game
without a current round (db_c3b) yields a payload. -/
theorem claim_C3 :
    build_game_state_payload db_c3 g_c3 = .error (.attributeError "VOTING") ∧
    build_game_state_payload db_c3r g_c3 = .error (.attributeError "VOTING") ∧
    state_service_import = .error (.importError "MAX_ROUNDS") ∧
    (build_game_state_payload db_c3b g_c3b).toOption.isSome = true :=
  ⟨rfl, rfl, rfl, rfl⟩

/-- C4 counterexample.  In db_c4 the sixth round resolves (judge 41 picks
submission 410); the claim requires the game to become Finished with no
seventh round, but the route reports final_round_triggered = false, a
round with number 7 exists afterwards, and no game row is Finished. -/
theorem claim_C4_counterexample :
    ((pick_winner_route db_c4 g_c4 r_c4 p_c4 410).toOption.map
      (fun res =>
        (res.2,
         res.1.rounds.any (fun rr => rr.game_id = 4 ∧ rr.round_number = 7),
         res.1.games.any (fun gg => gg.phase = GamePhase.finished))))
      = some (false, true, false) := by
  decide

/-- C4 (amended): the game has no fixed round count.  After a winner is
picked and the final-round trigger is false, the next round is created
with number (previous maximum + 1) — whatever that maximum is, including
6 — as a normal submitting round, and no game phase changes (first
conjunct); picking a winner by itself never touches any game row, so a
round resolving never finishes the game (second conjunct). -/
theorem claim_C4 :
    (∀ (db : DB) (g : GameRec), eligible_players db g ≠ [] →
      (create_next_round db g).toOption.map
        (fun res => (res.2.round_number, res.2.is_final_round, res.2.phase,
                     res.1.games.map (fun gg => gg.phase)))
        = some (lastRoundNumber db g + 1, false, RoundPhase.submitting,
                db.games.map (fun gg => gg.phase))) ∧
    (∀ (db : DB) (g : GameRec) (r : RoundRec) (j : PlayerRec) (sid : Nat),
      (pick_winner db g r j sid).toOption.map (fun res => res.1.games)
        = (pick_winner db g r j sid).toOption.map (fun _ => db.games)) := by
  constructor
  · intro db g hne
    unfold create_next_round create_round
    have hlen : 0 < (eligible_players db g).length := List.length_pos.mpr hne
    have hlt : (lastRoundNumber db g + 1 - 1) % (eligible_players db g).length
        < (eligible_players db g).length := Nat.mod_lt _ hlen
    cases hget : (eligible_players db g).get?
        ((lastRoundNumber db g + 1 - 1) % (eligible_players db g).length) with
    | none =>
      exact absurd (List.get?_eq_none.mp hget) (Nat.not_le.mpr hlt)
    | some judge =>
      simp only [hget, Except.toOption, Option.map]
      apply congrArg
      refine Prod.ext rfl (Prod.ext rfl (Prod.ext rfl ?_))
      show (updateGameIn _ g.id _).games.map _ = _
      unfold updateGameIn
      show (db.games.map _).map _ = _
      rw [List.map_map]
      apply List.map_congr_left
      intro gg _
      by_cases h : gg.id = g.id <;> simp [h, Function.comp]
  · intro db g r j sid
    unfold pick_winner
    split
    · rfl
    · split
      · rfl
      · split
        · rfl
        · split
          · rfl
          · split
            · rfl
            · rfl

/-- C4 witness: in db_c4 the last round number is 6 and the next created
round carries number 7. -/
theorem claim_C4_witness :
    lastRoundNumber db_c4 g_c4 = 6 ∧
    (create_next_round db_c4 g_c4).toOption.map
      (fun res => (res.2.round_number, res.2.is_final_round, res.2.phase,
                   res.1.games.map (fun gg => gg.phase)))
      = some (lastRoundNumber db_c4 g_c4 + 1, false, RoundPhase.submitting,
              db_c4.games.map (fun gg => gg.phase)) :=
  ⟨by decide, claim_C4.1 db_c4 g_c4 (by decide)⟩

/-- C5 counterexample.  In db_c5 both reachable-eligible players have
voted, so by the claim the quorum (2 votes ≥ 2 reachable-eligible) should
trigger resolution; all_voted is nevertheless false, because the connected
spectator 53 is counted in the denominator. -/
theorem claim_C5_counterexample :
    all_voted db_c5 g_c5 r_c5 = false ∧
    voteCount db_c5 r_c5 ≥ spec_reachable_eligible_count db_c5 g_c5 := by
  decide

/-- Counting players satisfying q splits by role: every player is either
Player-role or Observer-role. -/
theorem countP_role_split (l : List PlayerRec) (q : PlayerRec → Bool) :
    l.countP q
      = l.countP (fun p => q p && decide (p.role = PlayerRole.player))
        + l.countP (fun p => q p && decide (p.role = PlayerRole.spectator)) := by
  induction l with
  | nil => rfl
  | cons a as ih =>
    rw [List.countP_cons, List.countP_cons, List.countP_cons, ih]
    by_cases hq : q a = true
    · cases hr : a.role <;> simp [hq, hr] <;> omega
    · simp [hq]

/-- C5 (amended): observers are included in the voting quorum.  all_voted
holds exactly when the vote count reaches the reachable-eligible count
plus the count of connected spectators (first conjunct), so a connected
observer is counted toward — and can be needed for — the quorum; and
record_vote reads nothing but the voter's id, so an observer's vote is
accepted exactly like a player's (second conjunct). -/
theorem claim_C5 :
    (∀ (db : DB) (g : GameRec) (r : RoundRec),
      all_voted db g r = true ↔
        voteCount db r ≥ spec_reachable_eligible_count db g + connectedSpectatorCount db g) ∧
    (∀ (db : DB) (g : GameRec) (r : RoundRec) (v : PlayerRec) (cid : Nat)
        (role2 : PlayerRole),
      record_vote db g r { v with role := role2 } cid = record_vote db g r v cid) := by
  constructor
  · intro db g r
    unfold all_voted
    rw [decide_eq_true_iff]
    have hsplit :
        (db.players.filter (fun p => p.game_id = g.id ∧ p.is_connected = true)).length
          = spec_reachable_eligible_count db g + connectedSpectatorCount db g := by
      unfold spec_reachable_eligible_count connectedSpectatorCount
      rw [← List.countP_eq_length_filter, ← List.countP_eq_length_filter,
        ← List.countP_eq_length_filter, countP_role_split]
      have e1 : ∀ p ∈ db.players,
          ((decide (p.game_id = g.id ∧ p.is_connected = true)
              && decide (p.role = PlayerRole.player)) = true
            ↔ decide (p.game_id = g.id ∧ p.role = PlayerRole.player ∧ p.is_connected = true)
                = true) := by
        intro p _
        by_cases h1 : p.game_id = g.id <;> by_cases h2 : p.is_connected = true <;>
          by_cases h3 : p.role = PlayerRole.player <;> simp [h1, h2, h3]
      have e2 : ∀ p ∈ db.players,
          ((decide (p.game_id = g.id ∧ p.is_connected = true)
              && decide (p.role = PlayerRole.spectator)) = true
            ↔ decide (p.game_id = g.id ∧ p.role = PlayerRole.spectator ∧ p.is_connected = true)
                = true) := by
        intro p _
        by_cases h1 : p.game_id = g.id <;> by_cases h2 : p.is_connected = true <;>
          by_cases h3 : p.role = PlayerRole.spectator <;> simp [h1, h2, h3]
      rw [List.countP_congr e1, List.countP_congr e2]
    rw [hsplit]
  · intro db g r v cid role2
    rfl

/-- C6: at round creation the judge is the eligible (non-spectator) player
at join-order position (round_number - 1) mod player-count, and the round
starts submitting and non-final (first conjunct); while the round is in
the submitting phase of a non-final round, any submission by the judge
fails with Forbidden, the validation raising before any row is touched, so
no submission is recorded (second conjunct). -/
theorem claim_C6 :
    (∀ (db : DB) (g : GameRec) (n : Nat), eligible_players db g ≠ [] →
      (create_round db g n).toOption.map
        (fun res => (res.2.judge_id, res.2.phase, res.2.is_final_round, res.2.round_number))
        = some (((eligible_players db g).get?
                  ((n - 1) % (eligible_players db g).length)).map (fun j => j.id),
                RoundPhase.submitting, false, n)) ∧
    (∀ (db : DB) (g : GameRec) (r : RoundRec) (p : PlayerRec) (cid : Nat),
      r.phase = RoundPhase.submitting → r.is_final_round = false →
      some p.id = r.judge_id →
      submit_card db g r p cid = .error .forbidden) := by
  constructor
  · intro db g n hne
    unfold create_round
    have hlen : 0 < (eligible_players db g).length := List.length_pos.mpr hne
    have hlt : (n - 1) % (eligible_players db g).length < (eligible_players db g).length :=
      Nat.mod_lt _ hlen
    cases hget : (eligible_players db g).get? ((n - 1) % (eligible_players db g).length) with
    | none => exact absurd (List.get?_eq_none.mp hget) (Nat.not_le.mpr hlt)
    | some judge =>
      simp only [hget]
      rfl
  · intro db g r p cid h1 h2 h3
    unfold submit_card
    rw [if_neg (by simp [h1])]
    by_cases hs : p.is_spectator = true
    · rw [if_pos hs]
    · rw [if_neg hs, if_pos ⟨h2, h3⟩]

/-- C6 witness: in db_c6 the second round's judge is player 62 (position
(2 - 1) mod 3 = 1 of the join-ordered eligible players), and player 62's
attempt to submit the card 81 it holds is rejected with Forbidden. -/
theorem claim_C6_witness :
    (create_round db_c6 g_c6 2).toOption.map
      (fun res => (res.2.judge_id, res.2.phase, res.2.is_final_round, res.2.round_number))
      = some (((eligible_players db_c6 g_c6).get?
                ((2 - 1) % (eligible_players db_c6 g_c6).length)).map (fun j => j.id),
              RoundPhase.submitting, false, 2) ∧
    ((eligible_players db_c6 g_c6).get?
        ((2 - 1) % (eligible_players db_c6 g_c6).length)).map (fun j => j.id) = some 62 ∧
    submit_card db_c6 g_c6 r_c6 p_c6 81 = .error .forbidden :=
  ⟨claim_C6.1 db_c6 g_c6 2 (by decide), by decide,
   claim_C6.2 db_c6 g_c6 r_c6 p_c6 81 rfl rfl rfl⟩

/-- C8: a duplicate action is rejected with the AlreadyActed error
(AlreadySubmittedError in errors.py, for submissions and votes alike)
while the round is in the phase accepting that action, and the rejection
is raised before any row is written, so no card, submission, vote or score
changes.  First conjunct: a second submit by a player who already has a
Submission row this round.  Second conjunct: a second vote by a
participant who already has a Vote row this round. -/
theorem claim_C8 :
    (∀ (db : DB) (g : GameRec) (r : RoundRec) (p : PlayerRec) (cid : Nat),
      r.phase = RoundPhase.submitting →
      p.is_spectator = false →
      ¬(r.is_final_round = false ∧ some p.id = r.judge_id) →
      (db.submissions.filter (fun s => s.round_id = r.id ∧ s.player_id = p.id)) ≠ [] →
      submit_card db g r p cid = .error .alreadySubmitted) ∧
    (∀ (db : DB) (g : GameRec) (r : RoundRec) (v : PlayerRec) (cid : Nat),
      r.is_final_round = true →
      r.phase = RoundPhase.revealed →
      (db.votes.filter (fun w => w.round_id = r.id ∧ w.voter_id = v.id)) ≠ [] →
      record_vote db g r v cid = .error .alreadySubmitted) := by
  constructor
  · intro db g r p cid h1 h2 h3 h4
    unfold submit_card
    rw [if_neg (by simp [h1]), if_neg (by simp [h2]), if_neg h3, if_pos h4]
  · intro db g r v cid h1 h2 h3
    unfold record_vote
    rw [if_neg (by simp [h1]), if_neg (by simp [h2]), if_pos h3]

/-- C8 witness: player 11 of db_c1, who already submitted in round 100,
submits again and gets AlreadyActed; voter 51 of db_c5, who already voted
in round 500, votes again and gets AlreadyActed. -/
theorem claim_C8_witness :
    submit_card db_c1 g_c1 r_c1 p_c1 303 = .error .alreadySubmitted ∧
    record_vote db_c5 g_c5 r_c5 p_c5 71 = .error .alreadySubmitted :=
  ⟨claim_C8.1 db_c1 g_c1 r_c1 p_c1 303 rfl rfl (by decide) (by decide),
   claim_C8.2 db_c5 g_c5 r_c5 p_c5 71 rfl rfl (by decide)⟩

/-- Incrementing one player's score through the update map changes the
found score only at that id. -/
theorem find?_score_update (l : List PlayerRec) (pid0 pid : Nat) :
    ((l.map (fun p => if p.id = pid0 then { p with score := p.score + 1 } else p)).find?
        (fun p => p.id = pid)).map (fun p => p.score)
      = if pid = pid0
        then ((l.find? (fun p => p.id = pid)).map (fun p => p.score)).map (· + 1)
        else (l.find? (fun p => p.id = pid)).map (fun p => p.score) := by
  rw [List.find?_map]
  have hfun : ((fun p : PlayerRec => decide (p.id = pid)) ∘
        (fun p => if p.id = pid0 then { p with score := p.score + 1 } else p))
      = (fun p : PlayerRec => decide (p.id = pid)) := by
    funext x
    by_cases h : x.id = pid0 <;> simp [h]
  rw [hfun, Option.map_map]
  cases hfind : l.find? (fun p => decide (p.id = pid)) with
  | none => by_cases hpp : pid = pid0 <;> simp [hpp]
  | some q =>
    have hq : q.id = pid := by
      have := List.find?_some hfind
      simpa using this
    by_cases hpp : pid = pid0
    · have : q.id = pid0 := by rw [hq, hpp]
      simp [hpp, Function.comp, this]
    · have : ¬ q.id = pid0 := fun h => hpp (by rw [← hq, h])
      simp [hpp, Function.comp, this]

/-- The award loop of tally_and_finish adds, to each present player, one
point per winning submission of theirs, provided the submitters' rows
exist. -/
theorem scoreOf_award_points (subs : List SubmissionRec) (db : DB) (pid : Nat)
    (hx : ∀ s ∈ subs, ∃ q ∈ db.players, q.id = s.player_id) :
    scoreOf (award_points db subs) pid
      = (scoreOf db pid).map (fun sc => sc + subs.countP (fun s => s.player_id = pid)) := by
  induction subs generalizing db with
  | nil =>
    unfold award_points
    cases scoreOf db pid <;> simp
  | cons s ss ih =>
    obtain ⟨q0, hq0mem, hq0id⟩ := hx s (List.mem_cons_self s ss)
    have hfind : (db.players.find? (fun p => p.id = s.player_id)).isSome := by
      rw [List.find?_isSome]
      exact ⟨q0, hq0mem, by simpa using hq0id⟩
    unfold award_points
    cases hf : db.players.find? (fun p => p.id = s.player_id) with
    | none => rw [hf] at hfind; simp at hfind
    | some q =>
      show scoreOf (award_points (updatePlayerIn db s.player_id
        (fun p => { p with score := p.score + 1 })) ss) pid = _
      have hx' : ∀ t ∈ ss,
          ∃ q ∈ (updatePlayerIn db s.player_id
            (fun p => { p with score := p.score + 1 })).players, q.id = t.player_id := by
        intro t ht
        obtain ⟨w, hwmem, hwid⟩ := hx t (List.mem_cons_of_mem s ht)
        refine ⟨if w.id = s.player_id then { w with score := w.score + 1 } else w, ?_, ?_⟩
        · exact List.mem_map_of_mem _ hwmem
        · by_cases hw : w.id = s.player_id
          · rw [if_pos hw]; exact hwid
          · rw [if_neg hw]; exact hwid
      rw [ih _ hx']
      have hupd : scoreOf (updatePlayerIn db s.player_id
            (fun p => { p with score := p.score + 1 })) pid
          = if pid = s.player_id
            then (scoreOf db pid).map (· + 1)
            else scoreOf db pid := by
        unfold scoreOf updatePlayerIn
        exact find?_score_update db.players s.player_id pid
      rw [hupd, List.countP_cons]
      by_cases hpp : pid = s.player_id
      · rw [if_pos hpp]
        have : decide (s.player_id = pid) = true := by simp [hpp]
        rw [this]
        cases scoreOf db pid <;> simp <;> omega
      · rw [if_neg hpp]
        have : decide (s.player_id = pid) = false := by simp; exact fun h => hpp h.symm
        rw [this]
        cases scoreOf db pid <;> simp

/-- C2 counterexample.  In db_c2 the three submitted cards 31, 32 and 33
receive one vote each, so all three are tied at the maximum; by the claim
each of their submitters (21, 22, 23) must gain +1.  tally_and_finish
leaves all three scores at 0: with more than two cards tied the code
awards no points at all. -/
theorem claim_C2_counterexample :
    (winning_card_ids db_c2 r_c2).length = 3 ∧
    31 ∈ winning_card_ids db_c2 r_c2 ∧
    scoreOf (tally_and_finish db_c2 g_c2 r_c2) 21 = some 0 ∧
    scoreOf (tally_and_finish db_c2 g_c2 r_c2) 22 = some 0 ∧
    scoreOf (tally_and_finish db_c2 g_c2 r_c2) 23 = some 0 := by
  decide

/-- C2 (amended): at final-round resolution, votes are tallied per card,
the maximum tally computed and every card tied at the maximum is a winning
card; the participant who submitted each winning card receives +1 exactly
when the number of winning cards is 1 or 2, and with three or more cards
tied at the maximum nobody scores.  The equation gives each player's score
after resolution: the old score plus one per winning submission of theirs
when there are 1 or 2 winners, unchanged otherwise.  (The 2/2/1 concrete
case of the claim is the witness.) -/
theorem claim_C2 (db : DB) (g : GameRec) (r : RoundRec) (pid : Nat)
    (hx : ∀ s ∈ db.submissions.filter
        (fun s => s.round_id = r.id ∧ s.card_id ∈ winning_card_ids db r),
      ∃ q ∈ db.players, q.id = s.player_id) :
    scoreOf (tally_and_finish db g r) pid
      = if (winning_card_ids db r).length = 1 ∨ (winning_card_ids db r).length = 2
        then (scoreOf db pid).map (fun sc => sc +
          (db.submissions.filter (fun s => s.round_id = r.id ∧
            s.card_id ∈ winning_card_ids db r)).countP (fun s => s.player_id = pid))
        else scoreOf db pid := by
  by_cases hw : (winning_card_ids db r).length = 1 ∨ (winning_card_ids db r).length = 2
  · rw [if_pos hw]
    show scoreOf (if (winning_card_ids db r).length = 1 ∨ (winning_card_ids db r).length = 2
      then award_points db (db.submissions.filter (fun s => s.round_id = r.id ∧
        s.card_id ∈ winning_card_ids db r)) else db) pid = _
    rw [if_pos hw]
    exact scoreOf_award_points _ db pid hx
  · rw [if_neg hw]
    show scoreOf (if (winning_card_ids db r).length = 1 ∨ (winning_card_ids db r).length = 2
      then award_points db (db.submissions.filter (fun s => s.round_id = r.id ∧
        s.card_id ∈ winning_card_ids db r)) else db) pid = _
    rw [if_neg hw]

/-- C2 witness, the spec's concrete tie-break case: with votes 2/2/1 for
the cards of players 21 (A), 22 (B), 23 (C), resolution leaves A and B at
score 1 and C at score 0. -/
theorem claim_C2_witness :
    scoreOf (tally_and_finish db_c2w g_c2w r_c2w) 21 = some 1 ∧
    scoreOf (tally_and_finish db_c2w g_c2w r_c2w) 22 = some 1 ∧
    scoreOf (tally_and_finish db_c2w g_c2w r_c2w) 23 = some 0 := by
  refine ⟨?_, ?_, ?_⟩
  · rw [claim_C2 db_c2w g_c2w r_c2w 21 (by decide)]
    decide
  · rw [claim_C2 db_c2w g_c2w r_c2w 22 (by decide)]
    decide
  · rw [claim_C2 db_c2w g_c2w r_c2w 23 (by decide)]
    decide

/-- With distinct card ids, two members of the card list sharing an id are
the same row. -/
theorem card_eq_of_id_eq {l : List CardRec} (hnd : (l.map (fun c => c.id)).Nodup)
    {x c : CardRec} (hx : x ∈ l) (hc : c ∈ l) (h : x.id = c.id) : x = c :=
  List.inj_on_of_nodup_map hnd hx hc h

/-- Every card row carrying the updated id is marked played with no holder
after the play-card update. -/
theorem update_card_marks (db : DB) (cid : Nat) :
    ∀ x ∈ (updateCardIn db cid
        (fun cc => { cc with is_played := true, holder_id := none })).cards,
      x.id = cid → x.is_played = true ∧ x.holder_id = none := by
  intro x hx hid
  obtain ⟨y, hy, hxy⟩ := List.mem_map.mp hx
  by_cases h : y.id = cid
  · rw [if_pos h] at hxy
    rw [← hxy]
    exact ⟨rfl, rfl⟩
  · rw [if_neg h] at hxy
    rw [← hxy] at hid
    exact absurd hid h

/-- The play-card update preserves the played-and-unheld marks of any card
id. -/
theorem update_preserves_marks (db : DB) (cid0 cid : Nat)
    (hall : ∀ x ∈ db.cards, x.id = cid → x.is_played = true ∧ x.holder_id = none) :
    ∀ x ∈ (updateCardIn db cid0
        (fun cc => { cc with is_played := true, holder_id := none })).cards,
      x.id = cid → x.is_played = true ∧ x.holder_id = none := by
  intro x hx hid
  obtain ⟨y, hy, hxy⟩ := List.mem_map.mp hx
  by_cases h : y.id = cid0
  · rw [if_pos h] at hxy
    rw [← hxy]
    exact ⟨rfl, rfl⟩
  · rw [if_neg h] at hxy
    exact hall x (hxy ▸ hy) hid

/-- The play-card update keeps the id column of the card table. -/
theorem update_card_ids (db : DB) (cid : Nat) :
    ((updateCardIn db cid
        (fun cc => { cc with is_played := true, holder_id := none })).cards.map
      (fun c => c.id))
      = db.cards.map (fun c => c.id) := by
  show (db.cards.map _).map _ = _
  rw [List.map_map]
  apply List.map_congr_left
  intro y _
  by_cases h : y.id = cid <;> simp [h, Function.comp]

/-- Playing a card held by one player does not change another player's
held hand (distinct ids make the update touch only that one row). -/
theorem held_unplayed_update_other (db : DB) (c : CardRec) (q : Nat)
    (hc : c ∈ db.cards) (hnd : (db.cards.map (fun x => x.id)).Nodup)
    (hne : c.holder_id ≠ some q) :
    held_unplayed (updateCardIn db c.id
        (fun cc => { cc with is_played := true, holder_id := none })) q
      = held_unplayed db q := by
  unfold held_unplayed updateCardIn
  show List.filter _ (db.cards.map _) = _
  rw [List.filter_map]
  have hpt : ∀ x ∈ db.cards,
      ((fun (y : CardRec) => decide (y.holder_id = some q ∧ y.is_played = false)) ∘
        (fun y => if y.id = c.id then { y with is_played := true, holder_id := none } else y)) x
      = decide (x.holder_id = some q ∧ x.is_played = false) := by
    intro x hx
    by_cases h : x.id = c.id
    · have hxc : x = c := card_eq_of_id_eq hnd hx hc h
      subst hxc
      simp [h, hne]
    · simp [h]
  rw [List.filter_congr hpt]
  have hid : ∀ x ∈ List.filter
      (fun y => decide (y.holder_id = some q ∧ y.is_played = false)) db.cards,
      (fun y : CardRec =>
        if y.id = c.id then { y with is_played := true, holder_id := none } else y) x
        = id x := by
    intro x hx
    have hmem := List.mem_of_mem_filter hx
    have hprop := List.of_mem_filter hx
    have hhold : x.holder_id = some q := by
      simpa using (of_decide_eq_true hprop).1
    have hnid : ¬ x.id = c.id := by
      intro h
      have hxc : x = c := card_eq_of_id_eq hnd hmem hc h
      exact hne (hxc ▸ hhold)
    simp [hnid]
  rw [List.map_congr_left hid, List.map_id]

/-- Specification of the auto-submit loop of create_final_round: when every
listed player (pairwise distinct ids) holds exactly one unplayed card and
card ids are distinct, the loop succeeds, touches no game or round row,
only appends to the submissions, preserves played-and-unheld marks, and
for every listed player marks their single held card played and unheld and
records a submission of it. -/
theorem auto_submit_spec (ps : List PlayerRec) (db : DB) (rid : Nat)
    (hnd : (db.cards.map (fun c => c.id)).Nodup)
    (hps : ∀ p ∈ ps, (held_unplayed db p.id).length = 1)
    (hpnd : (ps.map (fun p => p.id)).Nodup) :
    ∃ db', auto_submit_last_cards rid db ps = .ok db' ∧
      db'.games = db.games ∧ db'.rounds = db.rounds ∧
      (∀ s ∈ db.submissions, s ∈ db'.submissions) ∧
      (∀ cid, (∀ x ∈ db.cards, x.id = cid → x.is_played = true ∧ x.holder_id = none) →
        (∀ x ∈ db'.cards, x.id = cid → x.is_played = true ∧ x.holder_id = none)) ∧
      (∀ p ∈ ps, ∃ c, held_unplayed db p.id = [c] ∧
        (∃ s ∈ db'.submissions, s.round_id = rid ∧ s.player_id = p.id ∧ s.card_id = c.id) ∧
        (∀ x ∈ db'.cards, x.id = c.id → x.is_played = true ∧ x.holder_id = none)) := by
  induction ps generalizing db with
  | nil =>
    exact ⟨db, rfl, rfl, rfl, fun s hs => hs, fun cid h => h,
      fun p hp => absurd hp (List.not_mem_nil p)⟩
  | cons p ps ih =>
    obtain ⟨c, hc⟩ := List.length_eq_one.mp (hps p (List.mem_cons_self p ps))
    have hcheld : c ∈ held_unplayed db p.id := by
      rw [hc]; exact List.mem_singleton_self c
    have hcmem : c ∈ db.cards := List.mem_of_mem_filter hcheld
    have hcprops : c.holder_id = some p.id ∧ c.is_played = false := by
      have hcheld2 : c ∈ db.cards.filter
          (fun y => decide (y.holder_id = some p.id ∧ y.is_played = false)) := hcheld
      simpa using List.of_mem_filter hcheld2
    set db1 := updateCardIn db c.id
      (fun cc => { cc with is_played := true, holder_id := none }) with hdb1
    set db2 : DB := { db1 with
      submissions := db1.submissions ++ [⟨db1.next_id, rid, p.id, c.id⟩],
      next_id := db1.next_id + 1 } with hdb2
    have hstep : auto_submit_last_cards rid db (p :: ps)
        = auto_submit_last_cards rid db2 ps := by
      conv_lhs => unfold auto_submit_last_cards
      rw [hc]
    have hnd1 : (db2.cards.map (fun c => c.id)).Nodup := by
      show ((updateCardIn db c.id _).cards.map _).Nodup
      rw [update_card_ids]
      exact hnd
    have heldeq : ∀ q ∈ ps, held_unplayed db2 q.id = held_unplayed db q.id := by
      intro q hq
      have hqp : p.id ≠ q.id := by
        intro h
        have hmm : q.id ∈ ps.map (fun x => x.id) := List.mem_map_of_mem _ hq
        rw [← h] at hmm
        exact (List.nodup_cons.mp hpnd).1 hmm
      have hne : c.holder_id ≠ some q.id := by
        rw [hcprops.1]
        intro h
        injection h with h'
        exact hqp h'
      show held_unplayed (updateCardIn db c.id _) q.id = _
      exact held_unplayed_update_other db c q.id hcmem hnd hne
    have hps1 : ∀ q ∈ ps, (held_unplayed db2 q.id).length = 1 := by
      intro q hq
      rw [heldeq q hq]
      exact hps q (List.mem_cons_of_mem p hq)
    obtain ⟨db', hok, hgames, hrounds, hsubs, hmarks, hmain⟩ :=
      ih db2 hnd1 hps1 (List.nodup_cons.mp hpnd).2
    refine ⟨db', by rw [hstep]; exact hok, by rw [hgames]; rfl, by rw [hrounds]; rfl,
      ?_, ?_, ?_⟩
    · intro s hs
      exact hsubs s (List.mem_append_left _ hs)
    · intro cid hall
      exact hmarks cid (fun x hx hxid => update_preserves_marks db c.id cid hall x hx hxid)
    · intro q hq
      rcases List.mem_cons.mp hq with hqp | hqtail
      · subst hqp
        refine ⟨c, hc, ?_, ?_⟩
        · exact ⟨⟨db1.next_id, rid, q.id, c.id⟩,
            hsubs _ (List.mem_append_right _ (List.mem_singleton_self _)), rfl, rfl, rfl⟩
        · exact fun x hx hxid =>
            hmarks c.id (fun y hy hyid => update_card_marks db c.id y hy hyid) x hx hxid
      · obtain ⟨c', hc', hsub', hmark'⟩ := hmain q hqtail
        exact ⟨c', by rw [← heldeq q hqtail]; exact hc', hsub', hmark'⟩

/-- Full specification of create_final_round under the trigger condition:
it succeeds, the created round is judge-less, final, numbered one past the
previous maximum and ends up revealed; the game row is moved to the
final_round phase; and every eligible player's single held card is marked
played and unheld with a Submission recorded for it. -/
theorem create_final_round_spec (db : DB) (g : GameRec)
    (Ht : should_trigger_final_round db g = true)
    (HcND : (db.cards.map (fun c => c.id)).Nodup)
    (HpND : (db.players.map (fun p => p.id)).Nodup) :
    ∃ db',
      create_final_round db g
        = .ok (db', ⟨db.next_id, g.id, lastRoundNumber db g + 1, none,
                     RoundPhase.revealed, none, none, true⟩) ∧
      (∀ gg ∈ db'.games, gg.id = g.id → gg.phase = GamePhase.final_round) ∧
      (∀ rr ∈ db'.rounds, rr.id = db.next_id → rr.phase = RoundPhase.revealed) ∧
      (∀ p ∈ eligible_players db g, ∃ c, held_unplayed db p.id = [c] ∧
        (∃ s ∈ db'.submissions,
          s.round_id = db.next_id ∧ s.player_id = p.id ∧ s.card_id = c.id) ∧
        (∀ x ∈ db'.cards, x.id = c.id → x.is_played = true ∧ x.holder_id = none)) := by
  have hps0 : ∀ p ∈ eligible_players db g, (held_unplayed db p.id).length = 1 := by
    unfold should_trigger_final_round at Ht
    rw [Bool.and_eq_true] at Ht
    intro p hp
    exact of_decide_eq_true (List.all_eq_true.mp Ht.1 p hp)
  have heligND : ((eligible_players db g).map (fun p => p.id)).Nodup := by
    have hfilterND : ((db.players.filter
        (fun p => p.game_id = g.id ∧ p.is_spectator = false)).map (fun p => p.id)).Nodup :=
      List.Nodup.sublist ((List.filter_sublist db.players).map (fun p => p.id)) HpND
    exact ((perm_stableSortBy byJoinOrder _).map (fun p => p.id)).symm.nodup hfilterND
  -- the intermediate states of the function body
  set frI : RoundRec := ⟨db.next_id, g.id, lastRoundNumber db g + 1, none,
    RoundPhase.submitting, none, none, true⟩ with hfrI
  set db1 : DB := { db with rounds := db.rounds ++ [frI], next_id := db.next_id + 1 } with hd1
  set db2 : DB := updateGameIn db1 g.id (fun gg =>
    { gg with current_round_id := some frI.id, phase := GamePhase.final_round }) with hd2
  obtain ⟨db3, hok, hgames3, hrounds3, hsubs3, hmarks3, hmain3⟩ :=
    auto_submit_spec (eligible_players db2 g) db2 frI.id HcND hps0 heligND
  refine ⟨updateRoundIn db3 frI.id (fun rr => { rr with phase := RoundPhase.revealed }),
    ?_, ?_, ?_, ?_⟩
  · show create_final_round db g = _
    unfold create_final_round
    show (match auto_submit_last_cards frI.id db2 (eligible_players db2 g) with
      | Except.error e => Except.error e
      | Except.ok db3 => Except.ok (updateRoundIn db3 frI.id
          (fun rr => { rr with phase := RoundPhase.revealed }),
          { frI with phase := RoundPhase.revealed })) = _
    rw [hok]
  · intro gg hgg hid
    have hgg3 : gg ∈ db2.games := by rw [← hgames3]; exact hgg
    obtain ⟨y, hy, hxy⟩ := List.mem_map.mp hgg3
    by_cases h : y.id = g.id
    · rw [if_pos h] at hxy
      rw [← hxy]
    · rw [if_neg h] at hxy
      rw [← hxy] at hid
      exact absurd hid h
  · intro rr hrr hid
    obtain ⟨y, hy, hxy⟩ := List.mem_map.mp hrr
    by_cases h : y.id = frI.id
    · rw [if_pos h] at hxy
      rw [← hxy]
    · rw [if_neg h] at hxy
      rw [← hxy] at hid
      exact absurd hid h
  · intro p hp
    obtain ⟨c, hc, hsub, hmark⟩ := hmain3 p hp
    exact ⟨c, hc, hsub, hmark⟩

/-- C7: the final-round trigger holds exactly when there is at least one
eligible player and every eligible player holds exactly one unplayed card
(first conjunct); and whenever it holds (with distinct card and player
ids), create_final_round succeeds and produces a judge-less final round,
numbered one past the previous maximum, that ends up revealed rather than
accepting submissions, with the game moved to the final_round phase and
every eligible player's last held card marked played with its holder
cleared and a Submission recorded for it without any player action
(second conjunct). -/
theorem claim_C7 :
    (∀ (db : DB) (g : GameRec),
      should_trigger_final_round db g = true ↔
        (eligible_players db g ≠ [] ∧
          ∀ p ∈ eligible_players db g, (held_unplayed db p.id).length = 1)) ∧
    (∀ (db : DB) (g : GameRec),
      should_trigger_final_round db g = true →
      (db.cards.map (fun c => c.id)).Nodup →
      (db.players.map (fun p => p.id)).Nodup →
      (create_final_round db g).toOption.map (fun res =>
        (res.2.judge_id, res.2.is_final_round, res.2.phase, res.2.round_number,
         res.1.games.all (fun gg => gg.id ≠ g.id ∨ gg.phase = GamePhase.final_round),
         res.1.rounds.all (fun rr => rr.id ≠ res.2.id ∨ rr.phase = RoundPhase.revealed),
         (eligible_players db g).all (fun p =>
           (held_unplayed db p.id).all (fun c =>
             res.1.submissions.any (fun s =>
               s.round_id = res.2.id ∧ s.player_id = p.id ∧ s.card_id = c.id) &&
             res.1.cards.all (fun x =>
               x.id ≠ c.id ∨ (x.is_played = true ∧ x.holder_id = none))))))
        = some (none, true, RoundPhase.revealed, lastRoundNumber db g + 1,
                true, true, true)) := by
  constructor
  · intro db g
    unfold should_trigger_final_round
    rw [Bool.and_eq_true]
    constructor
    · rintro ⟨hall, hlen⟩
      refine ⟨?_, ?_⟩
      · exact List.length_pos.mp (of_decide_eq_true hlen)
      · intro p hp
        exact of_decide_eq_true (List.all_eq_true.mp hall p hp)
    · rintro ⟨hne, hall⟩
      refine ⟨?_, ?_⟩
      · exact List.all_eq_true.mpr (fun p hp => decide_eq_true (hall p hp))
      · exact decide_eq_true (List.length_pos.mpr hne)
  · intro db g Ht HcND HpND
    obtain ⟨db', heq, hgames, hrounds, hmain⟩ := create_final_round_spec db g Ht HcND HpND
    rw [heq]
    show some (_, _, _, _, _, _, _) = _
    have hB1 : db'.games.all (fun gg => gg.id ≠ g.id ∨ gg.phase = GamePhase.final_round)
        = true := by
      refine List.all_eq_true.mpr (fun gg hgg => decide_eq_true ?_)
      by_cases h : gg.id = g.id
      · exact Or.inr (hgames gg hgg h)
      · exact Or.inl h
    have hB2 : db'.rounds.all (fun rr => rr.id ≠ db.next_id ∨ rr.phase = RoundPhase.revealed)
        = true := by
      refine List.all_eq_true.mpr (fun rr hrr => decide_eq_true ?_)
      by_cases h : rr.id = db.next_id
      · exact Or.inr (hrounds rr hrr h)
      · exact Or.inl h
    have hB3 : (eligible_players db g).all (fun p =>
        (held_unplayed db p.id).all (fun c =>
          db'.submissions.any (fun s =>
            s.round_id = db.next_id ∧ s.player_id = p.id ∧ s.card_id = c.id) &&
          db'.cards.all (fun x =>
            x.id ≠ c.id ∨ (x.is_played = true ∧ x.holder_id = none)))) = true := by
      refine List.all_eq_true.mpr (fun p hp => ?_)
      obtain ⟨c, hc, ⟨s, hsmem, hsr, hsp, hsc⟩, hmark⟩ := hmain p hp
      rw [hc]
      refine List.all_eq_true.mpr (fun c' hc' => ?_)
      rw [List.mem_singleton.mp hc']
      rw [Bool.and_eq_true]
      constructor
      · exact List.any_eq_true.mpr ⟨s, hsmem, decide_eq_true ⟨hsr, hsp, hsc⟩⟩
      · refine List.all_eq_true.mpr (fun x hx => decide_eq_true ?_)
        by_cases h : x.id = c.id
        · exact Or.inr (hmark x hx h)
        · exact Or.inl h
    rw [hB1, hB2, hB3]

/-- C7 witness: in db_c7 (two players, one unplayed card each, last round
number 10) the final round is created judge-less as round 11, revealed,
with the game in final_round phase and both last cards auto-submitted. -/
theorem claim_C7_witness :
    (create_final_round db_c7 g_c7).toOption.map (fun res =>
      (res.2.judge_id, res.2.is_final_round, res.2.phase, res.2.round_number,
       res.1.games.all (fun gg => gg.id ≠ g_c7.id ∨ gg.phase = GamePhase.final_round),
       res.1.rounds.all (fun rr => rr.id ≠ res.2.id ∨ rr.phase = RoundPhase.revealed),
       (eligible_players db_c7 g_c7).all (fun p =>
         (held_unplayed db_c7 p.id).all (fun c =>
           res.1.submissions.any (fun s =>
             s.round_id = res.2.id ∧ s.player_id = p.id ∧ s.card_id = c.id) &&
           res.1.cards.all (fun x =>
             x.id ≠ c.id ∨ (x.is_played = true ∧ x.holder_id = none))))))
      = some (none, true, RoundPhase.revealed, lastRoundNumber db_c7 g_c7 + 1,
              true, true, true) :=
  claim_C7.2 db_c7 g_c7 (by decide) (by decide) (by decide)

/-- Deleting a player's authored cards leaves nothing of theirs to find. -/
theorem filter_after_delete (l : List CardRec) (gid pid : Nat) :
    ((l.filter (fun c => ¬(c.game_id = gid ∧ c.creator_id = pid))).filter
      (fun c => c.game_id = gid ∧ c.creator_id = pid)) = [] := by
  induction l with
  | nil => rfl
  | cons a as ih =>
    rw [List.filter_cons]
    by_cases h : a.game_id = gid ∧ a.creator_id = pid
    · rw [if_neg (by simp [h])]
      exact ih
    · rw [if_pos (by simp [h]), List.filter_cons, if_neg (by simp [h])]
      exact ih

/-- A filterMap by an everywhere-some function keeps the length. -/
theorem length_filterMap_of_isSome {α β : Type} (f : α → Option β) (l : List α)
    (h : ∀ a ∈ l, (f a).isSome) : (l.filterMap f).length = l.length := by
  induction l with
  | nil => rfl
  | cons a as ih =>
    rw [List.filterMap_cons]
    cases hf : f a with
    | none =>
      have := h a (List.mem_cons_self a as)
      rw [hf] at this
      simp at this
    | some b =>
      simp only [List.length_cons]
      rw [ih (fun x hx => h x (List.mem_cons_of_mem a hx))]

/-- A payload whose card_type strings are all among the three categories
has as many entries as the three per-category counts together. -/
theorem length_eq_sum_countType (data : List (String × String))
    (h : (data.all (fun c => c.1 = "start" ∨ c.1 = "stop" ∨ c.1 = "continue")) = true) :
    data.length
      = countType data "start" + countType data "stop" + countType data "continue" := by
  induction data with
  | nil => rfl
  | cons a as ih =>
    rw [List.all_cons, Bool.and_eq_true] at h
    have ha := of_decide_eq_true h.1
    have ihh := ih h.2
    unfold countType at ihh ⊢
    rcases ha with h1 | h2 | h3
    · have h1' : ¬ a.1 = "stop" := by rw [h1]; decide
      have h1'' : ¬ a.1 = "continue" := by rw [h1]; decide
      simp [List.filter_cons, h1, h1', h1'', List.length_cons, ihh]
      omega
    · have h2' : ¬ a.1 = "start" := by rw [h2]; decide
      have h2'' : ¬ a.1 = "continue" := by rw [h2]; decide
      simp [List.filter_cons, h2, h2', h2'', List.length_cons, ihh]
      omega
    · have h3' : ¬ a.1 = "start" := by rw [h3]; decide
      have h3'' : ¬ a.1 = "stop" := by rw [h3]; decide
      simp [List.filter_cons, h3, h3', h3'', List.length_cons, ihh]
      omega

/-- Specification of the card-insertion loop: with every payload type
valid it succeeds, and the cards attributed to the player in this game
afterwards are those before plus one per payload entry, in order, carrying
the parsed type and stripped text. -/
theorem insert_authored_spec (data : List (String × String)) (db : DB) (g : GameRec)
    (p : PlayerRec) (hv : ∀ c ∈ data, (cardTypeOfString c.1).isSome) :
    ∃ db', insert_authored_cards db g p data = .ok db' ∧
      (db'.cards.filter (fun c => c.game_id = g.id ∧ c.creator_id = p.id)).map
          (fun c => (c.card_type, c.text))
        = (db.cards.filter (fun c => c.game_id = g.id ∧ c.creator_id = p.id)).map
            (fun c => (c.card_type, c.text))
          ++ data.filterMap (fun cd => (cardTypeOfString cd.1).map (fun t => (t, cd.2.trim))) := by
  induction data generalizing db with
  | nil => exact ⟨db, rfl, by rw [List.filterMap_nil, List.append_nil]⟩
  | cons cd rest ih =>
    have hsome := hv cd (List.mem_cons_self cd rest)
    obtain ⟨t, ht⟩ := Option.isSome_iff_exists.mp hsome
    set card : CardRec := ⟨db.next_id, g.id, p.id, some p.id, t, cd.2.trim, false⟩ with hcard
    set db1 : DB := { db with cards := db.cards ++ [card], next_id := db.next_id + 1 } with hdb1
    have hstep : insert_authored_cards db g p (cd :: rest)
        = insert_authored_cards db1 g p rest := by
      conv_lhs => unfold insert_authored_cards
      rw [ht]
    obtain ⟨db', hok, htrack⟩ := ih db1 (fun x hx => hv x (List.mem_cons_of_mem cd hx))
    refine ⟨db', by rw [hstep]; exact hok, ?_⟩
    rw [htrack]
    show ((db.cards ++ [card]).filter _).map _ ++ _ = _
    rw [List.filter_append, List.map_append, List.filterMap_cons, ht]
    have hcardok : List.filter (fun c => decide (c.game_id = g.id ∧ c.creator_id = p.id)) [card]
        = [card] := by
      simp [List.filter_cons]
    rw [hcardok, List.append_assoc]
    rfl

/-- Specification of save_player_cards on a valid 2/2/2 payload during
card creation: it succeeds and afterwards the cards attributed to the
player in this game are exactly the payload's, in order, previous authored
cards having been deleted. -/
theorem save_player_cards_spec (db : DB) (g : GameRec) (p : PlayerRec)
    (data : List (String × String))
    (hphase : g.phase = GamePhase.card_creation)
    (hrole : p.is_spectator = false)
    (hall : (data.all (fun c => c.1 = "start" ∨ c.1 = "stop" ∨ c.1 = "continue")) = true)
    (hs : countType data "start" = 2) (ht : countType data "stop" = 2)
    (hc : countType data "continue" = 2) :
    ∃ db', save_player_cards db g p data = .ok db' ∧
      (db'.cards.filter (fun c => c.game_id = g.id ∧ c.creator_id = p.id)).map
          (fun c => (c.card_type, c.text))
        = data.filterMap (fun cd => (cardTypeOfString cd.1).map (fun t => (t, cd.2.trim))) := by
  have hvalid : ∀ c ∈ data, (cardTypeOfString c.1).isSome := by
    intro c hcmem
    rcases of_decide_eq_true (List.all_eq_true.mp hall c hcmem) with h | h | h <;>
      simp [cardTypeOfString, h]
  obtain ⟨db', hok, htrack⟩ := insert_authored_spec data
    { db with cards := db.cards.filter (fun c => ¬(c.game_id = g.id ∧ c.creator_id = p.id)) }
    g p hvalid
  refine ⟨db', ?_, ?_⟩
  · show save_player_cards db g p data = _
    unfold save_player_cards
    rw [if_neg (by simp [hphase]), if_neg (by simp [hrole]),
      if_neg (fun hcontra => hcontra hall), if_neg (by simp [hs, ht, hc])]
    exact hok
  · rw [htrack]
    show ((db.cards.filter (fun c => ¬(c.game_id = g.id ∧ c.creator_id = p.id))).filter
        (fun c => c.game_id = g.id ∧ c.creator_id = p.id)).map _ ++ _ = _
    rw [filter_after_delete, List.map_nil, List.nil_append]

/-- C10: authoring is idempotent under retry before Playing begins: two
valid 2/2/2 saves for the same participant succeed, and afterwards the
cards attributed to that participant are exactly the six of the second
call (type and stripped text, in payload order), not twelve. -/
theorem claim_C10 (db : DB) (g : GameRec) (p : PlayerRec)
    (data1 data2 : List (String × String))
    (hphase : g.phase = GamePhase.card_creation)
    (hrole : p.is_spectator = false)
    (hall1 : (data1.all (fun c => c.1 = "start" ∨ c.1 = "stop" ∨ c.1 = "continue")) = true)
    (h1s : countType data1 "start" = 2) (h1t : countType data1 "stop" = 2)
    (h1c : countType data1 "continue" = 2)
    (hall2 : (data2.all (fun c => c.1 = "start" ∨ c.1 = "stop" ∨ c.1 = "continue")) = true)
    (h2s : countType data2 "start" = 2) (h2t : countType data2 "stop" = 2)
    (h2c : countType data2 "continue" = 2) :
    ((save_player_cards db g p data1).bind
        (fun dbx => save_player_cards dbx g p data2)).toOption.map
      (fun db2 =>
        ((db2.cards.filter (fun c => c.game_id = g.id ∧ c.creator_id = p.id)).map
            (fun c => (c.card_type, c.text)),
         (db2.cards.filter (fun c => c.game_id = g.id ∧ c.creator_id = p.id)).length))
      = some (data2.filterMap (fun cd => (cardTypeOfString cd.1).map (fun t => (t, cd.2.trim))),
              6) := by
  obtain ⟨db1, hok1, _⟩ :=
    save_player_cards_spec db g p data1 hphase hrole hall1 h1s h1t h1c
  obtain ⟨db2, hok2, htrack2⟩ :=
    save_player_cards_spec db1 g p data2 hphase hrole hall2 h2s h2t h2c
  rw [hok1]
  show (save_player_cards db1 g p data2).toOption.map _ = _
  rw [hok2]
  show some (_, _) = _
  have hvalid2 : ∀ c ∈ data2, ((fun cd : String × String =>
      (cardTypeOfString cd.1).map (fun t => (t, cd.2.trim))) c).isSome := by
    intro c hcmem
    rcases of_decide_eq_true (List.all_eq_true.mp hall2 c hcmem) with h | h | h <;>
      simp [cardTypeOfString, h]
  have hlen : (db2.cards.filter (fun c => c.game_id = g.id ∧ c.creator_id = p.id)).length
      = 6 := by
    have h1 : ((db2.cards.filter
        (fun c => c.game_id = g.id ∧ c.creator_id = p.id)).map
          (fun c => (c.card_type, c.text))).length
        = (data2.filterMap (fun cd =>
            (cardTypeOfString cd.1).map (fun t => (t, cd.2.trim)))).length := by
      rw [htrack2]
    rw [List.length_map] at h1
    rw [h1, length_filterMap_of_isSome _ _ hvalid2,
      length_eq_sum_countType data2 hall2, h2s, h2t, h2c]
  rw [htrack2, hlen]

/-- C10 witness: on the concrete game db_c10, authoring payload data_c10a
and then re-authoring with data_c10b leaves player 101 with exactly the
six cards of the second payload. -/
theorem claim_C10_witness :
    ((save_player_cards db_c10 g_c10 p_c10 data_c10a).bind
        (fun dbx => save_player_cards dbx g_c10 p_c10 data_c10b)).toOption.map
      (fun db2 =>
        ((db2.cards.filter (fun c => c.game_id = g_c10.id ∧ c.creator_id = p_c10.id)).map
            (fun c => (c.card_type, c.text)),
         (db2.cards.filter (fun c => c.game_id = g_c10.id ∧ c.creator_id = p_c10.id)).length))
      = some (data_c10b.filterMap
                (fun cd => (cardTypeOfString cd.1).map (fun t => (t, cd.2.trim))),
              6) :=
  claim_C10 db_c10 g_c10 p_c10 data_c10a data_c10b rfl rfl (by decide) (by decide)
    (by decide) (by decide) (by decide) (by decide) (by decide) (by decide)

/-- A lookup miss when no key matches. -/
theorem lookup_eq_none_of_no_key (l : List (Nat × Nat)) (k : Nat)
    (h : ∀ kv ∈ l, kv.1 ≠ k) : l.lookup k = none := by
  induction l with
  | nil => rfl
  | cons a as ih =>
    have hne : ¬ (k == a.1) = true := by
      simp only [beq_iff_eq]
      intro hk
      exact h a (List.mem_cons_self a as) hk.symm
    show List.lookup k ((a.1, a.2) :: as) = none
    rw [List.lookup_cons]
    simp only [Bool.not_eq_true] at hne
    rw [hne]
    exact ih (fun kv hkv => h kv (List.mem_cons_of_mem a hkv))

/-- A lookup hit is a member. -/
theorem mem_of_lookup_eq_some (l : List (Nat × Nat)) (k v : Nat)
    (h : l.lookup k = some v) : (k, v) ∈ l := by
  induction l with
  | nil => simp [List.lookup] at h
  | cons a as ih =>
    rw [show a = (a.1, a.2) from rfl, List.lookup_cons] at h
    cases hk : (k == a.1) with
    | true =>
      rw [hk] at h
      injection h with hv
      have hk' : k = a.1 := by simpa using hk
      rw [hk', ← hv]
      exact List.mem_cons_self _ _
    | false =>
      rw [hk] at h
      exact List.mem_cons_of_mem _ (ih h)

/-- With distinct keys, lookup finds exactly the member pairs. -/
theorem lookup_eq_some_iff_mem (l : List (Nat × Nat)) (k v : Nat)
    (hnd : (l.map (fun kv => kv.1)).Nodup) :
    l.lookup k = some v ↔ (k, v) ∈ l := by
  constructor
  · exact mem_of_lookup_eq_some l k v
  · intro hmem
    induction l with
    | nil => exact absurd hmem (List.not_mem_nil _)
    | cons a as ih =>
      rw [show a = (a.1, a.2) from rfl, List.lookup_cons]
      rcases List.mem_cons.mp hmem with heq | htail
      · rw [← heq]
        simp
      · have hka : ¬ (k == a.1) = true := by
          simp only [beq_iff_eq]
          intro hk
          have hmm : k ∈ as.map (fun kv => kv.1) := by
            simpa using List.mem_map_of_mem (fun kv : Nat × Nat => kv.1) htail
          rw [hk] at hmm
          rw [List.map_cons] at hnd
          exact (List.nodup_cons.mp hnd).1 hmm
        simp only [Bool.not_eq_true] at hka
        rw [hka]
        exact ih (by rw [List.map_cons] at hnd; exact (List.nodup_cons.mp hnd).2) htail

/-- Every dealt pair keys a card of the dealt list and values a listed
player. -/
theorem dealAssignments_mem (pids : List Nat) (cs : List CardRec) (kv : Nat × Nat)
    (h : kv ∈ dealAssignments pids cs) :
    (∃ c ∈ cs, c.id = kv.1) ∧ kv.2 ∈ pids := by
  induction pids generalizing cs with
  | nil => exact absurd h (List.not_mem_nil kv)
  | cons p ps ih =>
    rcases List.mem_append.mp h with hhead | htail
    · obtain ⟨c, hc, hckv⟩ := List.mem_map.mp hhead
      refine ⟨⟨c, List.mem_of_mem_take hc, ?_⟩, ?_⟩
      · rw [← hckv]
      · rw [← hckv]
        exact List.mem_cons_self p ps
    · obtain ⟨⟨c, hc, hcid⟩, hv⟩ := ih (cs.drop 2) htail
      exact ⟨⟨c, List.mem_of_mem_drop hc, hcid⟩, List.mem_cons_of_mem p hv⟩

/-- The dealt keys are the ids of the first 2·|players| cards, in order. -/
theorem dealAssignments_keys (pids : List Nat) (cs : List CardRec) :
    (dealAssignments pids cs).map (fun kv => kv.1)
      = (cs.take (2 * pids.length)).map (fun c => c.id) := by
  induction pids generalizing cs with
  | nil => simp [dealAssignments]
  | cons p ps ih =>
    show ((cs.take 2).map _ ++ dealAssignments ps (cs.drop 2)).map _ = _
    rw [List.map_append, List.map_map, ih]
    have h2 : 2 * (p :: ps).length = 2 + 2 * ps.length := by
      simp [List.length_cons]
      omega
    rw [h2, List.take_add, List.map_append]
    rfl

/-- Counting split along a second predicate. -/
theorem countP_and_split {α : Type} (l : List α) (P Q : α → Bool) :
    l.countP P
      = l.countP (fun a => P a && Q a) + l.countP (fun a => P a && !(Q a)) := by
  induction l with
  | nil => rfl
  | cons a as ih =>
    rw [List.countP_cons, List.countP_cons, List.countP_cons, ih]
    cases hp : P a <;> cases hq : Q a <;> simp [hp, hq] <;> omega

/-- Counting an exclusive disjunction adds the two counts. -/
theorem countP_or_disjoint {α : Type} (l : List α) (p q : α → Bool)
    (h : ∀ a ∈ l, ¬(p a = true ∧ q a = true)) :
    l.countP (fun a => p a || q a) = l.countP p + l.countP q := by
  induction l with
  | nil => rfl
  | cons a as ih =>
    rw [List.countP_cons, List.countP_cons, List.countP_cons,
      ih (fun x hx => h x (List.mem_cons_of_mem a hx))]
    cases hp : p a <;> cases hq : q a <;> simp [hp, hq] <;> try omega
    exact absurd ⟨hp, hq⟩ (h a (List.mem_cons_self a as))

/-- Summing a constant over a list. -/
theorem sum_map_const {α : Type} (l : List α) (k : Nat) :
    (l.map (fun _ => k)).sum = k * l.length := by
  induction l with
  | nil => simp
  | cons a as ih =>
    rw [List.map_cons, List.sum_cons, ih, List.length_cons]
    ring

/-- The eligible players of a game have pairwise distinct ids when the
player table does. -/
theorem eligible_ids_nodup (db : DB) (g : GameRec)
    (HpND : (db.players.map (fun p => p.id)).Nodup) :
    ((eligible_players db g).map (fun p => p.id)).Nodup := by
  have hfilterND : ((db.players.filter
      (fun p => p.game_id = g.id ∧ p.is_spectator = false)).map (fun p => p.id)).Nodup :=
    List.Nodup.sublist ((List.filter_sublist db.players).map (fun p => p.id)) HpND
  exact ((perm_stableSortBy byJoinOrder _).map (fun p => p.id)).symm.nodup hfilterND

/-- With distinct players and exactly two cards per player in the dealt
list, a given player receives exactly the two cards at their chunk: the
dealt pairs valued at that player have precisely two distinct keys. -/
theorem dealAssignments_pairs_of_pid (pids : List Nat) (cs : List CardRec) (pid : Nat)
    (hnd : pids.Nodup) (hpid : pid ∈ pids)
    (hlen : cs.length = 2 * pids.length)
    (hcnd : (cs.map (fun c => c.id)).Nodup) :
    ∃ c1 c2, c1 ∈ cs ∧ c2 ∈ cs ∧ c1.id ≠ c2.id ∧
      ∀ k, ((k, pid) ∈ dealAssignments pids cs ↔ (k = c1.id ∨ k = c2.id)) := by
  induction pids generalizing cs with
  | nil => exact absurd hpid (List.not_mem_nil pid)
  | cons p ps ih =>
    match cs, hlen, hcnd with
    | [], hlen, _ => ?_
    | [a], hlen, _ => ?_
    | a :: b :: rest, hlen, hcnd => ?_
    case _ =>
      exfalso
      simp only [List.length_nil, List.length_cons] at hlen
      omega
    case _ =>
      exfalso
      simp only [List.length_nil, List.length_cons] at hlen
      omega
    case _ =>
      have hrest : rest.length = 2 * ps.length := by
        simp [List.length_cons] at hlen
        omega
      have hab : a.id ≠ b.id := by
        rw [List.map_cons, List.map_cons] at hcnd
        intro h
        exact (List.nodup_cons.mp hcnd).1 (h ▸ List.mem_cons_self b.id _)
      have hDA : dealAssignments (p :: ps) (a :: b :: rest)
          = (a.id, p) :: (b.id, p) :: dealAssignments ps rest := rfl
      by_cases hp : pid = p
      · subst hp
        refine ⟨a, b, List.mem_cons_self a _, List.mem_cons_of_mem a (List.mem_cons_self b _),
          hab, ?_⟩
        intro k
        rw [hDA]
        constructor
        · intro hmem
          rcases List.mem_cons.mp hmem with h1 | hmem2
          · exact Or.inl (congrArg Prod.fst h1)
          · rcases List.mem_cons.mp hmem2 with h2 | htail
            · exact Or.inr (congrArg Prod.fst h2)
            · have := (dealAssignments_mem ps rest (k, pid) htail).2
              exact absurd this (List.nodup_cons.mp hnd).1
        · intro hk
          rcases hk with h1 | h2
          · rw [h1]
            exact List.mem_cons_self _ _
          · rw [h2]
            exact List.mem_cons_of_mem _ (List.mem_cons_self _ _)
      · have hpid' : pid ∈ ps := by
          rcases List.mem_cons.mp hpid with h | h
          · exact absurd h hp
          · exact h
        have hcnd' : (rest.map (fun c => c.id)).Nodup := by
          rw [List.map_cons, List.map_cons] at hcnd
          exact ((List.nodup_cons.mp (List.nodup_cons.mp hcnd).2).2)
        obtain ⟨c1, c2, hc1, hc2, hcc, hiff⟩ :=
          ih rest (List.nodup_cons.mp hnd).2 hpid' hrest hcnd'
        refine ⟨c1, c2, List.mem_cons_of_mem a (List.mem_cons_of_mem b hc1),
          List.mem_cons_of_mem a (List.mem_cons_of_mem b hc2), hcc, ?_⟩
        intro k
        rw [hDA]
        constructor
        · intro hmem
          rcases List.mem_cons.mp hmem with h1 | hmem2
          · exact absurd (show pid = p from congrArg Prod.snd h1) hp
          · rcases List.mem_cons.mp hmem2 with h2 | htail
            · exact absurd (show pid = p from congrArg Prod.snd h2) hp
            · exact (hiff k).mp htail
        · intro hk
          exact List.mem_cons_of_mem _ (List.mem_cons_of_mem _ ((hiff k).mpr hk))

/-- A present key is never a lookup miss. -/
theorem lookup_ne_none_of_key_mem (l : List (Nat × Nat)) (k : Nat)
    (h : ∃ kv ∈ l, kv.1 = k) : l.lookup k ≠ none := by
  induction l with
  | nil =>
    obtain ⟨kv, hkv, _⟩ := h
    exact absurd hkv (List.not_mem_nil kv)
  | cons a as ih =>
    show List.lookup k ((a.1, a.2) :: as) ≠ none
    rw [List.lookup_cons]
    cases hk : (k == a.1) with
    | true => simp
    | false =>
      apply ih
      obtain ⟨kv, hkv, hk1⟩ := h
      rcases List.mem_cons.mp hkv with hh | ht
      · exfalso
        rw [hh] at hk1
        rw [hk1] at hk
        simp at hk
      · exact ⟨kv, ht, hk1⟩

/-- Redistribution of one category changes only holder and played flags:
any projection blind to those two fields is preserved. -/
theorem redistributeType_proj {β : Type} (db : DB) (g : GameRec)
    (sh : List CardRec → List CardRec) (pids : List Nat) (t : CardType)
    (f : CardRec → β)
    (hf : ∀ (c : CardRec) (pid : Nat),
      f { c with holder_id := some pid, is_played := false } = f c) :
    (redistributeType db g sh pids t).cards.map f = db.cards.map f := by
  set asg := dealAssignments pids
    (sh (db.cards.filter (fun c => c.game_id = g.id ∧ c.card_type = t))) with hasg
  show (applyAssignments db.cards asg).map f = _
  unfold applyAssignments
  rw [List.map_map]
  apply List.map_congr_left
  intro c _
  show f (match asg.lookup c.id with
    | some pid => { c with holder_id := some pid, is_played := false }
    | none => c) = f c
  cases h : asg.lookup c.id with
  | none => rfl
  | some q => exact hf c q

/-- The card-id column survives one category's redistribution. -/
theorem redistributeType_ids (db : DB) (g : GameRec)
    (sh : List CardRec → List CardRec) (pids : List Nat) (t : CardType) :
    (redistributeType db g sh pids t).cards.map (fun c => c.id)
      = db.cards.map (fun c => c.id) :=
  redistributeType_proj db g sh pids t (fun c => c.id) (fun _ _ => rfl)

/-- Counting with a predicate blind to holder and played flags survives
one category's redistribution. -/
theorem redistributeType_countP (db : DB) (g : GameRec)
    (sh : List CardRec → List CardRec) (pids : List Nat) (t : CardType)
    (P : CardRec → Bool)
    (hP : ∀ (c : CardRec) (pid : Nat),
      P { c with holder_id := some pid, is_played := false } = P c) :
    (redistributeType db g sh pids t).cards.countP P = db.cards.countP P := by
  set asg := dealAssignments pids
    (sh (db.cards.filter (fun c => c.game_id = g.id ∧ c.card_type = t))) with hasg
  show (applyAssignments db.cards asg).countP P = _
  unfold applyAssignments
  rw [List.countP_map]
  apply List.countP_congr
  intro c _
  show (P (match asg.lookup c.id with
    | some pid => { c with holder_id := some pid, is_played := false }
    | none => c) = true) ↔ P c = true
  cases h : asg.lookup c.id with
  | none => exact Iff.rfl
  | some q =>
    show P { c with holder_id := some q, is_played := false } = true ↔ _
    rw [hP c q]

/-- Counting cards of one category survives the redistribution of another
category: the dealt pairs only key cards of the dealt category. -/
theorem redistributeType_countP_other (db : DB) (g : GameRec)
    (sh : List CardRec → List CardRec) (pids : List Nat) (t0 t : CardType)
    (P : CardRec → Bool)
    (hsh : ∀ l, (sh l).Perm l)
    (hnd : (db.cards.map (fun c => c.id)).Nodup)
    (hPtype : ∀ c, P c = true → c.card_type = t0)
    (hne : t0 ≠ t) :
    (redistributeType db g sh pids t).cards.countP P = db.cards.countP P := by
  set asg := dealAssignments pids
    (sh (db.cards.filter (fun c => c.game_id = g.id ∧ c.card_type = t))) with hasg
  show (applyAssignments db.cards asg).countP P = _
  unfold applyAssignments
  rw [List.countP_map]
  apply List.countP_congr
  intro c hcmem
  show (P (match asg.lookup c.id with
    | some pid => { c with holder_id := some pid, is_played := false }
    | none => c) = true) ↔ P c = true
  cases h : asg.lookup c.id with
  | none => exact Iff.rfl
  | some q =>
    obtain ⟨⟨y, hy, hyid⟩, _⟩ :=
      dealAssignments_mem pids _ _ (mem_of_lookup_eq_some _ _ _ h)
    have hyfil : y ∈ db.cards.filter (fun c => c.game_id = g.id ∧ c.card_type = t) :=
      ((hsh _).mem_iff).mp hy
    have hymem : y ∈ db.cards := List.mem_of_mem_filter hyfil
    have hyt : y.card_type = t := by
      have h1 := List.of_mem_filter hyfil
      exact (of_decide_eq_true h1).2
    have hyc : y = c := card_eq_of_id_eq hnd hymem hcmem hyid
    have hct : c.card_type = t := hyc ▸ hyt
    have hPc : P c = false := by
      cases hv : P c with
      | false => rfl
      | true =>
        rw [hPtype c hv] at hct
        exact absurd hct hne
    have hPFc : P { c with holder_id := some q, is_played := false } = false := by
      cases hv : P { c with holder_id := some q, is_played := false } with
      | false => rfl
      | true =>
        have hct0 : c.card_type = t0 := by
          have h2 := hPtype { c with holder_id := some q, is_played := false } hv
          exact h2
        rw [hct0] at hct
        exact absurd hct hne
    show P { c with holder_id := some q, is_played := false } = true ↔ _
    rw [hPc, hPFc]

/-- After one category's redistribution, a listed player holds exactly two
unplayed cards of that category in the game: the two cards of their dealt
chunk. -/
theorem redistributeType_own (db : DB) (g : GameRec) (sh : List CardRec → List CardRec)
    (pids : List Nat) (t : CardType) (pid : Nat)
    (hsh : ∀ l, (sh l).Perm l)
    (hnd : (db.cards.map (fun c => c.id)).Nodup)
    (hpids : pids.Nodup) (hpid : pid ∈ pids)
    (hlen : (db.cards.filter (fun c => c.game_id = g.id ∧ c.card_type = t)).length
      = 2 * pids.length) :
    (redistributeType db g sh pids t).cards.countP
      (fun c => c.game_id = g.id ∧ c.card_type = t ∧
        c.holder_id = some pid ∧ c.is_played = false) = 2 := by
  set flt := db.cards.filter (fun c => c.game_id = g.id ∧ c.card_type = t) with hflt
  set cs := sh flt with hcs
  have hperm : cs.Perm flt := hsh flt
  have hcslen : cs.length = 2 * pids.length := by rw [hperm.length_eq]; exact hlen
  have hfnd : (flt.map (fun c => c.id)).Nodup :=
    List.Nodup.sublist ((List.filter_sublist db.cards).map (fun c => c.id)) hnd
  have hcsnd : (cs.map (fun c => c.id)).Nodup :=
    ((hperm.map (fun c => c.id))).symm.nodup hfnd
  set asg := dealAssignments pids cs with hasg
  have hkeys : asg.map (fun kv => kv.1) = cs.map (fun c => c.id) := by
    rw [hasg, dealAssignments_keys, ← hcslen, List.take_length]
  have hkeysnd : (asg.map (fun kv => kv.1)).Nodup := by rw [hkeys]; exact hcsnd
  have hmemdb : ∀ y ∈ cs, y ∈ db.cards ∧ y.game_id = g.id ∧ y.card_type = t := by
    intro y hy
    have hyfil : y ∈ flt := (hperm.mem_iff).mp hy
    have h1 := List.of_mem_filter hyfil
    exact ⟨List.mem_of_mem_filter hyfil, of_decide_eq_true h1⟩
  obtain ⟨c1, c2, hc1, hc2, hcc, hpairs⟩ :=
    dealAssignments_pairs_of_pid pids cs pid hpids hpid hcslen hcsnd
  show (applyAssignments db.cards asg).countP _ = 2
  unfold applyAssignments
  rw [List.countP_map]
  have hpoint : ∀ c ∈ db.cards,
      ((fun (x : CardRec) => decide (x.game_id = g.id ∧ x.card_type = t ∧
          x.holder_id = some pid ∧ x.is_played = false))
        (match asg.lookup c.id with
          | some q => { c with holder_id := some q, is_played := false }
          | none => c) = true)
      ↔ (decide (c.id = c1.id ∨ c.id = c2.id) = true) := by
    intro c hcmem
    cases h : asg.lookup c.id with
    | some q =>
      obtain ⟨⟨y, hy, hyid⟩, _⟩ := dealAssignments_mem pids _ _ (mem_of_lookup_eq_some _ _ _ h)
      obtain ⟨hymem, hyg, hyt⟩ := hmemdb y hy
      have hyc : y = c := card_eq_of_id_eq hnd hymem hcmem hyid
      have hcg : c.game_id = g.id := hyc ▸ hyg
      have hct : c.card_type = t := hyc ▸ hyt
      have hlk : asg.lookup c.id = some pid ↔ (c.id = c1.id ∨ c.id = c2.id) := by
        rw [lookup_eq_some_iff_mem asg c.id pid hkeysnd]
        exact hpairs c.id
      constructor
      · intro hP
        have hqpid : q = pid := by
          have h2 := of_decide_eq_true hP
          have h3 := h2.2.2.1
          injection h3 with h4
        apply decide_eq_true
        rw [← hlk, h, hqpid]
      · intro hor
        have hq : asg.lookup c.id = some pid := hlk.mpr (of_decide_eq_true hor)
        rw [h] at hq
        injection hq with hq'
        apply decide_eq_true
        rw [hq']
        exact ⟨hcg, hct, rfl, rfl⟩
    | none =>
      constructor
      · intro hP
        exfalso
        have h2 := of_decide_eq_true hP
        have hcfil : c ∈ flt := by
          rw [hflt]
          exact List.mem_filter.mpr ⟨hcmem, decide_eq_true ⟨h2.1, h2.2.1⟩⟩
        have hccs : c ∈ cs := (hperm.mem_iff).mpr hcfil
        have hkey : ∃ kv ∈ asg, kv.1 = c.id := by
          have : c.id ∈ asg.map (fun kv => kv.1) := by
            rw [hkeys]
            exact List.mem_map_of_mem _ hccs
          obtain ⟨kv, hkv, hkveq⟩ := List.mem_map.mp this
          exact ⟨kv, hkv, hkveq⟩
        exact lookup_ne_none_of_key_mem asg c.id hkey h
      · intro hor
        exfalso
        rcases of_decide_eq_true hor with h1 | h1
        · have : asg.lookup c.id = some pid := by
            rw [lookup_eq_some_iff_mem asg c.id pid hkeysnd]
            exact (hpairs c.id).mpr (Or.inl h1)
          rw [h] at this
          exact Option.noConfusion this
        · have : asg.lookup c.id = some pid := by
            rw [lookup_eq_some_iff_mem asg c.id pid hkeysnd]
            exact (hpairs c.id).mpr (Or.inr h1)
          rw [h] at this
          exact Option.noConfusion this
  have hsplit : ∀ c ∈ db.cards, (decide (c.id = c1.id ∨ c.id = c2.id) = true)
      ↔ ((decide (c.id = c1.id) || decide (c.id = c2.id)) = true) := by
    intro c _
    simp
  have hone : ∀ y ∈ cs, db.cards.countP (fun c => decide (c.id = y.id)) = 1 := by
    intro y hy
    have h1 : db.cards.countP (fun c => decide (c.id = y.id))
        = (db.cards.map (fun c => c.id)).countP (fun x => decide (x = y.id)) := by
      rw [List.countP_map]
      rfl
    rw [h1]
    have h2 : (db.cards.map (fun c => c.id)).countP (fun x => decide (x = y.id))
        = List.count y.id (db.cards.map (fun c => c.id)) := by
      rw [List.count_eq_countP]
      apply List.countP_congr
      intro x _
      simp
    rw [h2]
    exact List.count_eq_one_of_mem hnd (List.mem_map_of_mem _ (hmemdb y hy).1)
  have h4 : List.countP (fun c : CardRec => decide (c.id = c1.id ∨ c.id = c2.id))
      db.cards = 2 := by
    rw [List.countP_congr hsplit]
    rw [countP_or_disjoint db.cards _ _ (by
      intro c _ hboth
      have e1 := of_decide_eq_true hboth.1
      have e2 := of_decide_eq_true hboth.2
      exact hcc (e1 ▸ e2 ▸ rfl))]
    rw [hone c1 hc1, hone c2 hc2]
  exact (List.countP_congr hpoint).trans h4

/-- Counting cards splits across the three categories. -/
theorem countP_type_split (l : List CardRec) (q : CardRec → Bool) :
    l.countP q
      = l.countP (fun c => q c && decide (c.card_type = CardType.start))
        + l.countP (fun c => q c && decide (c.card_type = CardType.stop))
        + l.countP (fun c => q c && decide (c.card_type = CardType.cont)) := by
  induction l with
  | nil => rfl
  | cons a as ih =>
    rw [List.countP_cons, List.countP_cons, List.countP_cons, List.countP_cons, ih]
    cases ht : a.card_type <;> cases hq : q a <;> simp [hq, ht] <;> omega

/-- Counting cards splits across a duplicate-free list of creators that
covers every counted card. -/
theorem countP_partition_by_creator :
    ∀ (pids : List Nat) (l : List CardRec) (P : CardRec → Bool),
    pids.Nodup → (∀ c ∈ l, P c = true → c.creator_id ∈ pids) →
    l.countP P = (pids.map (fun pid =>
      l.countP (fun c => P c && decide (c.creator_id = pid)))).sum
  | [], l, P, _, hcov => by
    rw [List.map_nil, List.sum_nil]
    rw [List.countP_eq_zero]
    intro c hc hPc
    exact absurd (hcov c hc hPc) (List.not_mem_nil _)
  | p :: ps, l, P, hnd, hcov => by
    rw [countP_and_split l P (fun c => decide (c.creator_id = p)),
      List.map_cons, List.sum_cons]
    congr 1
    have hcov' : ∀ c ∈ l,
        (P c && !(decide (c.creator_id = p))) = true → c.creator_id ∈ ps := by
      intro c hc hPc
      rw [Bool.and_eq_true] at hPc
      have h1 : c.creator_id ≠ p := by
        intro hcp
        rw [hcp] at hPc
        simp at hPc
      rcases List.mem_cons.mp (hcov c hc hPc.1) with h | h
      · exact absurd h h1
      · exact h
    rw [countP_partition_by_creator ps l (fun c => P c && !(decide (c.creator_id = p)))
      (List.nodup_cons.mp hnd).2 hcov']
    apply congrArg
    apply List.map_congr_left
    intro pid hpid
    apply List.countP_congr
    intro c _
    have hpp : pid ≠ p := by
      intro h
      exact (List.nodup_cons.mp hnd).1 (h ▸ hpid)
    by_cases h1 : P c = true <;> by_cases h2 : c.creator_id = pid
    · have h3 : ¬ c.creator_id = p := by rw [h2]; exact hpp
      simp [h1, h2, h3]
      exact hpp
    · simp [h1, h2]
    · simp [h1]
    · simp [h1]

/-- C9: when every eligible player has authored exactly 2 cards of each of
the three categories (and every card of the game was authored by an
eligible player), then immediately after redistribution every eligible
player holds exactly 2 unplayed cards of each category in the game, and
the held-unplayed totals across players sum to 6 times the player count.
The shuffle parameter stands for random.shuffle and is assumed only to
permute its input; card and player ids are distinct (primary keys). -/
theorem claim_C9 (db : DB) (g : GameRec) (shuffle : List CardRec → List CardRec)
    (hsh : ∀ l, (shuffle l).Perm l)
    (hcnd : (db.cards.map (fun c => c.id)).Nodup)
    (hpnd : (db.players.map (fun p => p.id)).Nodup)
    (hauth : ∀ p ∈ eligible_players db g, ∀ t : CardType,
      (db.cards.filter (fun c => c.game_id = g.id ∧ c.creator_id = p.id ∧
        c.card_type = t)).length = 2)
    (hcreator : ∀ c ∈ db.cards, c.game_id = g.id →
      c.creator_id ∈ (eligible_players db g).map (fun p => p.id)) :
    (∀ p ∈ eligible_players db g, ∀ t : CardType,
      heldCountG (redistribute_cards db g shuffle) g p.id t = 2) ∧
    ((eligible_players db g).map
        (fun p => heldTotalG (redistribute_cards db g shuffle) g p.id)).sum
      = 6 * (eligible_players db g).length := by
  set pids := (eligible_players db g).map (fun p => p.id) with hpids
  have hpidsnd : pids.Nodup := eligible_ids_nodup db g hpnd
  have hfold : redistribute_cards db g shuffle
      = redistributeType (redistributeType
          (redistributeType db g shuffle pids CardType.start)
          g shuffle pids CardType.stop) g shuffle pids CardType.cont := rfl
  -- per-category totals in the pre-state
  have htot : ∀ t : CardType, (db.cards.filter
      (fun c => c.game_id = g.id ∧ c.card_type = t)).length = 2 * pids.length := by
    intro t
    rw [← List.countP_eq_length_filter]
    rw [countP_partition_by_creator pids db.cards
      (fun c => decide (c.game_id = g.id ∧ c.card_type = t)) hpidsnd
      (fun c hc hPc => hcreator c hc (of_decide_eq_true hPc).1)]
    rw [hpids, List.map_map]
    have hconst : ∀ p ∈ eligible_players db g,
        ((fun pid => db.cards.countP (fun c =>
            decide (c.game_id = g.id ∧ c.card_type = t) && decide (c.creator_id = pid)))
          ∘ (fun p => p.id)) p = (fun _ => 2) p := by
      intro p hp
      show db.cards.countP _ = 2
      have ha := hauth p hp t
      rw [← List.countP_eq_length_filter] at ha
      rw [← ha]
      apply List.countP_congr
      intro c _
      by_cases h1 : c.game_id = g.id <;> by_cases h2 : c.card_type = t <;>
        by_cases h3 : c.creator_id = p.id <;> simp [h1, h2, h3]
    rw [List.map_congr_left hconst, sum_map_const, List.length_map]
  set db1 := redistributeType db g shuffle pids CardType.start with hdb1
  set db2 := redistributeType db1 g shuffle pids CardType.stop with hdb2
  set db3 := redistributeType db2 g shuffle pids CardType.cont with hdb3
  have hnd1 : (db1.cards.map (fun c => c.id)).Nodup := by
    rw [hdb1, redistributeType_ids]
    exact hcnd
  have hnd2 : (db2.cards.map (fun c => c.id)).Nodup := by
    rw [hdb2, redistributeType_ids]
    exact hnd1
  have htot1 : ∀ t : CardType, (db1.cards.filter
      (fun c => c.game_id = g.id ∧ c.card_type = t)).length = 2 * pids.length := by
    intro t
    rw [← List.countP_eq_length_filter, hdb1,
      redistributeType_countP db g shuffle pids CardType.start
        (fun c => decide (c.game_id = g.id ∧ c.card_type = t)) (fun c pid => rfl),
      List.countP_eq_length_filter]
    exact htot t
  have htot2 : ∀ t : CardType, (db2.cards.filter
      (fun c => c.game_id = g.id ∧ c.card_type = t)).length = 2 * pids.length := by
    intro t
    rw [← List.countP_eq_length_filter, hdb2,
      redistributeType_countP db1 g shuffle pids CardType.stop
        (fun c => decide (c.game_id = g.id ∧ c.card_type = t)) (fun c pid => rfl),
      List.countP_eq_length_filter]
    exact htot1 t
  -- per-player per-category counts in the final state
  have hstart : ∀ pid ∈ pids, db3.cards.countP
      (fun c => c.game_id = g.id ∧ c.card_type = CardType.start ∧
        c.holder_id = some pid ∧ c.is_played = false) = 2 := by
    intro pid hpid
    rw [hdb3, redistributeType_countP_other db2 g shuffle pids CardType.start CardType.cont
      _ hsh hnd2 (fun c hP => (of_decide_eq_true hP).2.1) (by decide)]
    rw [hdb2, redistributeType_countP_other db1 g shuffle pids CardType.start CardType.stop
      _ hsh hnd1 (fun c hP => (of_decide_eq_true hP).2.1) (by decide)]
    rw [hdb1]
    exact redistributeType_own db g shuffle pids CardType.start pid hsh hcnd hpidsnd hpid
      (htot CardType.start)
  have hstop : ∀ pid ∈ pids, db3.cards.countP
      (fun c => c.game_id = g.id ∧ c.card_type = CardType.stop ∧
        c.holder_id = some pid ∧ c.is_played = false) = 2 := by
    intro pid hpid
    rw [hdb3, redistributeType_countP_other db2 g shuffle pids CardType.stop CardType.cont
      _ hsh hnd2 (fun c hP => (of_decide_eq_true hP).2.1) (by decide)]
    rw [hdb2]
    exact redistributeType_own db1 g shuffle pids CardType.stop pid hsh hnd1 hpidsnd hpid
      (htot1 CardType.stop)
  have hcont : ∀ pid ∈ pids, db3.cards.countP
      (fun c => c.game_id = g.id ∧ c.card_type = CardType.cont ∧
        c.holder_id = some pid ∧ c.is_played = false) = 2 := by
    intro pid hpid
    rw [hdb3]
    exact redistributeType_own db2 g shuffle pids CardType.cont pid hsh hnd2 hpidsnd hpid
      (htot2 CardType.cont)
  have hcount : ∀ p ∈ eligible_players db g, ∀ t : CardType,
      heldCountG (redistribute_cards db g shuffle) g p.id t = 2 := by
    intro p hp t
    have hpidmem : p.id ∈ pids := by
      rw [hpids]
      exact List.mem_map_of_mem _ hp
    unfold heldCountG
    rw [← List.countP_eq_length_filter, hfold]
    cases t with
    | start => exact hstart p.id hpidmem
    | stop => exact hstop p.id hpidmem
    | cont => exact hcont p.id hpidmem
  refine ⟨hcount, ?_⟩
  have htotal6 : ∀ p ∈ eligible_players db g,
      heldTotalG (redistribute_cards db g shuffle) g p.id = (fun _ => 6) p := by
    intro p hp
    show heldTotalG (redistribute_cards db g shuffle) g p.id = 6
    unfold heldTotalG
    rw [← List.countP_eq_length_filter]
    rw [countP_type_split]
    have hconv : ∀ t : CardType,
        (redistribute_cards db g shuffle).cards.countP
          (fun c => decide (c.game_id = g.id ∧ c.holder_id = some p.id ∧
            c.is_played = false) && decide (c.card_type = t))
        = (redistribute_cards db g shuffle).cards.countP
          (fun c => c.game_id = g.id ∧ c.card_type = t ∧
            c.holder_id = some p.id ∧ c.is_played = false) := by
      intro t
      apply List.countP_congr
      intro c _
      by_cases h1 : c.game_id = g.id <;> by_cases h2 : c.card_type = t <;>
        by_cases h3 : c.holder_id = some p.id <;> by_cases h4 : c.is_played = false <;>
          simp [h1, h2, h3, h4]
    rw [hconv CardType.start, hconv CardType.stop, hconv CardType.cont]
    have h1 := hcount p hp CardType.start
    have h2 := hcount p hp CardType.stop
    have h3 := hcount p hp CardType.cont
    unfold heldCountG at h1 h2 h3
    rw [← List.countP_eq_length_filter] at h1 h2 h3
    rw [h1, h2, h3]
  rw [List.map_congr_left htotal6, sum_map_const]

/-- C9 witness: in the two-player game db_c9, redistributing with the
identity shuffle leaves player 901 with 2 unplayed start cards, player 902
with 2 unplayed continue cards, and the held-unplayed totals summing to
6 times the player count. -/
theorem claim_C9_witness :
    heldCountG (redistribute_cards db_c9 g_c9 (fun l => l)) g_c9 901 CardType.start = 2 ∧
    heldCountG (redistribute_cards db_c9 g_c9 (fun l => l)) g_c9 902 CardType.cont = 2 ∧
    ((eligible_players db_c9 g_c9).map
        (fun p => heldTotalG (redistribute_cards db_c9 g_c9 (fun l => l)) g_c9 p.id)).sum
      = 6 * (eligible_players db_c9 g_c9).length := by
  have h := claim_C9 db_c9 g_c9 (fun l => l) (fun l => List.Perm.refl l)
    (by decide) (by decide) (by decide) (by decide)
  refine ⟨?_, ?_, h.2⟩
  · exact h.1 ⟨901, 9, "", PlayerRole.player, 0, true, 0, true⟩ (by decide) CardType.start
  · exact h.1 ⟨902, 9, "", PlayerRole.player, 1, true, 0, true⟩ (by decide) CardType.cont
